import Mathlib

/-!
# Funbit: the joke retrieval core of `src/App.jsx`

A shallow embedding of `fetchWithBackoff` (lines 5-23) and of `fetchJoke`
(lines 65-139), followed by the properties of the retrieval layer.

The asynchronous code is sequential (every promise is awaited), so it is
embedded as explicit state passing over a `World`: the upstream is a function
giving the outcome of the k-th HTTP request, and the world records how many
requests were issued and the chronological list of observable events.
-/

namespace Funbit

/-! ## Decoded JSON values -/

/-- A decoded JSON value, as returned by `response.json()`. The program never
computes with a number, it only tests whether it is zero, so numbers are taken
to be integers. -/
inductive Json where
  | null : Json
  | bool (b : Bool) : Json
  | num (n : Int) : Json
  | str (s : String) : Json
  | arr (items : List Json) : Json
  | obj (fields : List (String × Json)) : Json

/-- JavaScript truthiness of a decoded JSON value. -/
def Json.truthy : Json → Bool
  | .null => false
  | .bool b => b
  | .num n => n != 0
  | .str s => s != ""
  | .arr _ => true
  | .obj _ => true

/-- Truthiness of the result of a property read, `none` being `undefined`. -/
def truthyProp : Option Json → Bool
  | none => false
  | some v => v.truthy

/-- The errors thrown or rejected in `App.jsx`. -/
inductive JsError where
  /-- `fetch` rejected (line 8). -/
  | network (msg : String) : JsError
  /-- `HTTP error! Status: ...` (line 11). -/
  | http (status : Nat) : JsError
  /-- `response.json()` rejected (line 13). -/
  | decode (msg : String) : JsError
  /-- `Fetch failed after all retries.` (line 22). -/
  | exhausted : JsError
  /-- Reading a property of `null` (lines 87 and 120). -/
  | typeError : JsError
  /-- `new Error(data.message || 'API reported an internal error.')` (line 88),
  carrying the argument given to the constructor. -/
  | api (message : Json) : JsError
  /-- `Failed to fetch a complete joke after multiple retries.` (line 100). -/
  | incomplete : JsError
  /-- `Dad Joke API returned an invalid response structure.` (line 123). -/
  | invalidStructure : JsError

/-- The field `key` of a decoded value, for the keys the program reads
(`error`, `message`, `type`, `joke`): the own property of an object; a
boolean, number, string or array has none of these, and neither has `null`. -/
def Json.field (data : Json) (key : String) : Option Json :=
  match data with
  | .obj fields => fields.lookup key
  | _ => none

/-- The property read `data.key`: a `TypeError` when `data` is `null`,
otherwise the field, `undefined` (`none`) when there is none. -/
def Json.prop (data : Json) (key : String) : Except JsError (Option Json) :=
  match data with
  | .null => .error .typeError
  | _ => .ok (data.field key)

/-- The expression `a || b` where `a` is the result of a property read. -/
def orElse (a : Option Json) (b : Json) : Json :=
  match a with
  | some v => if v.truthy then v else b
  | none => b

/-! ## The world: upstream responses and observable events -/

/-- What one HTTP request produces: `fetch` rejects, or it resolves to a
response with a status and a body that `response.json()` decodes or not. -/
inductive Attempt where
  | netErr (msg : String) : Attempt
  | response (status : Nat) (body : Except String Json) : Attempt

/-- The value of a delay handed to `setTimeout`: a double that is a natural
number, `Infinity` or `NaN`. -/
inductive Millis where
  | finite (ms : Nat) : Millis
  | infinity : Millis
  | nan : Millis

/-- The double `delay * Math.pow(2, i)` of line 19, for `delay` the value of
a double that is a natural number. `Math.pow(2, i)` is the exact power for
`i < 1024` and `Infinity` from `i = 1024` on; the product of a double by a
power of two is exact unless it reaches `2^1024`, where it overflows to
`Infinity`; and `0 * Infinity` is `NaN`. -/
def jsDelay (delay i : Nat) : Millis :=
  if i < 1024 then
    if delay * 2 ^ i < 2 ^ 1024 then .finite (delay * 2 ^ i) else .infinity
  else if delay = 0 then .nan
  else .infinity

/-- Request headers (`options.headers`). -/
abbrev Headers := List (String × String)

/-- Observable events of a run, in the order they happen. -/
inductive Event where
  /-- `fetch(url, options)`. -/
  | request (url : String) (headers : Headers) : Event
  /-- `setTimeout(resolve, ms)` awaited. -/
  | wait (ms : Millis) : Event
  /-- An invocation of `fetchWithBackoff` from `fetchJoke`. -/
  | call (url : String) (headers : Headers) : Event
  /-- `console.warn`. -/
  | warn (msg : String) : Event
  /-- `console.error(label, e.message)`. -/
  | logError (label : String) (e : JsError) : Event

/-- The state of the outside world during a run. -/
structure World where
  /-- Number of HTTP requests issued so far: the next request gets the
  upstream outcome of this index. -/
  next : Nat
  /-- Events so far, oldest first. -/
  trace : List Event

/-- Append an event to the trace. -/
def World.emit (w : World) (e : Event) : World :=
  { w with trace := w.trace ++ [e] }

/-- Issue one HTTP request: the request is recorded and consumes one upstream
outcome. -/
def World.fetch (w : World) (url : String) (headers : Headers) : World :=
  { next := w.next + 1, trace := w.trace ++ [Event.request url headers] }

/-- `response.ok`: the status is in the range 200-299. -/
def statusOk (status : Nat) : Bool :=
  decide (200 ≤ status) && decide (status ≤ 299)

/-- Lines 8-13: the value returned, or the error thrown inside the `try`,
for one upstream outcome. -/
def attemptResult : Attempt → Except JsError Json
  | .netErr msg => .error (.network msg)
  | .response status body =>
    if !statusOk status then .error (.http status)
    else
      match body with
      | .ok v => .ok v
      | .error msg => .error (.decode msg)

/-! ## `fetchWithBackoff` (lines 5-23) -/

/-- The `for` loop of `fetchWithBackoff`, entered with loop variable `i`.
The loop variable and `retries` are natural numbers (a double counts exactly
up to `2^53`). -/
def fetchLoop (up : Nat → Attempt) (url : String) (headers : Headers)
    (retries delay : Nat) (i : Nat) (w : World) : Except JsError Json × World :=
  if i < retries then
    let w1 := w.fetch url headers
    match attemptResult (up w.next) with
    | .ok v => (.ok v, w1)
    | .error e =>
      if i = retries - 1 then (.error e, w1)
      else fetchLoop up url headers retries delay (i + 1) (w1.emit (.wait (jsDelay delay i)))
  else (.error .exhausted, w)
termination_by retries - i

/-- The function `fetchWithBackoff(url, options, retries, delay)`. -/
def fetchWithBackoff (up : Nat → Attempt) (url : String) (headers : Headers)
    (retries delay : Nat) (w : World) : Except JsError Json × World :=
  fetchLoop up url headers retries delay 0 w

/-- Default value of the parameter `retries`. -/
def defaultRetries : Nat := 5

/-- Default value of the parameter `delay`. -/
def defaultDelay : Nat := 1000

/-! ## `fetchJoke` (lines 65-139) -/

/-- The state held by the component: `joke`, `isLoading`, `error`
(`none` is `null`). -/
structure AppState where
  joke : Option Json
  isLoading : Bool
  error : Option String

/-- The initial values given to `useState` (lines 27-29). -/
def initialState : AppState :=
  { joke := none, isLoading := true, error := none }

/-- The shape-level attempt budget of the JokeAPI branch (line 72). -/
def MAX_ATTEMPTS : Nat := 5

/-- The JokeAPI endpoint (line 79). -/
def JOKE_API_URL : String :=
  "https://v2.jokeapi.dev/joke/Any?blacklistFlags=nsfw,religious,political,racist,sexist,explicit&type=single"

/-- The Dad Joke endpoint (line 115). -/
def DAD_JOKE_URL : String := "https://icanhazdadjoke.com/"

/-- A call `fetchWithBackoff(url, options)` made by `fetchJoke`, with the
default retry budget and base delay; the invocation is recorded. -/
def callFetcher (up : Nat → Attempt) (url : String) (headers : Headers)
    (w : World) : Except JsError Json × World :=
  fetchWithBackoff up url headers defaultRetries defaultDelay (w.emit (.call url headers))

/-- What the body of the `try` of the JokeAPI loop does with the decoded
data (lines 87-102). -/
inductive Shape where
  /-- `finalJoke = data.joke; break`. -/
  | accept (joke : Json) : Shape
  /-- Warn, wait 500 ms, `continue`. -/
  | retry : Shape
  /-- An error thrown inside the `try`. -/
  | thrown (e : JsError) : Shape

/-- `data.type === 'single'`. -/
def isSingle : Option Json → Bool
  | some (.str s) => s == "single"
  | _ => false

/-- The `else` branch of lines 94-102: the data is malformed. -/
def malformedStep (attempts : Nat) : Shape :=
  if attempts < MAX_ATTEMPTS then .retry else .thrown .incomplete

/-- Lines 87-102, for the data returned by the fetcher at the given value of
`attempts` (already incremented). -/
def inspect (data : Json) (attempts : Nat) : Shape :=
  match data.prop "error" with
  | .error e => .thrown e
  | .ok err =>
    if truthyProp err then
      .thrown (.api (orElse (data.field "message") (.str "API reported an internal error.")))
    else
      match data.field "joke" with
      | some j =>
        if isSingle (data.field "type") && j.truthy then .accept j
        else malformedStep attempts
      | none => malformedStep attempts

/-- The text of the warning of line 96. -/
def malformedWarning (attempts : Nat) : String :=
  s!"Malformed joke data received (Attempt {attempts}/{MAX_ATTEMPTS}). Retrying..."

/-- The `while` loop of the JokeAPI branch (lines 82-109), entered with the
given value of `attempts`; it yields `finalJoke` and `finalError`. -/
def jokeApiLoop (up : Nat → Attempt) (attempts : Nat) (w : World) :
    (Option Json × Option String) × World :=
  if attempts < MAX_ATTEMPTS then
    let attempts1 := attempts + 1
    match callFetcher up JOKE_API_URL [] w with
    | (.error e, w1) =>
      ((none, some "Failed to load a joke from JokeAPI."),
        w1.emit (.logError "Attempt failed permanently (JokeAPI):" e))
    | (.ok data, w1) =>
      match inspect data attempts1 with
      | .accept j => ((some j, none), w1)
      | .retry =>
        jokeApiLoop up attempts1
          ((w1.emit (.warn (malformedWarning attempts1))).emit (.wait (.finite 500)))
      | .thrown e =>
        ((none, some "Failed to load a joke from JokeAPI."),
          w1.emit (.logError "Attempt failed permanently (JokeAPI):" e))
  else ((none, none), w)
termination_by MAX_ATTEMPTS - attempts
decreasing_by all_goals simp_wf; all_goals omega

/-- The Dad Joke branch (lines 113-130); it yields `finalJoke` and
`finalError`. -/
def dadJoke (up : Nat → Attempt) (w : World) : (Option Json × Option String) × World :=
  match callFetcher up DAD_JOKE_URL [("Accept", "application/json")] w with
  | (.error e, w1) =>
    ((none, some "Failed to load a joke from Dad Joke API."),
      w1.emit (.logError "Failed to fetch Dad Joke:" e))
  | (.ok data, w1) =>
    match data.prop "joke" with
    | .error e =>
      ((none, some "Failed to load a joke from Dad Joke API."),
        w1.emit (.logError "Failed to fetch Dad Joke:" e))
    | .ok (some j) =>
      if j.truthy then ((some j, none), w1)
      else
        ((none, some "Failed to load a joke from Dad Joke API."),
          w1.emit (.logError "Failed to fetch Dad Joke:" .invalidStructure))
    | .ok none =>
      ((none, some "Failed to load a joke from Dad Joke API."),
        w1.emit (.logError "Failed to fetch Dad Joke:" .invalidStructure))

/-- Truthiness of `finalError` (a string or `null`). -/
def truthyStr : Option String → Bool
  | none => false
  | some s => s != ""

/-- The function `fetchJoke`, for the value `jokeSourceIndex` of
`Math.floor(Math.random() * 2)`, run from component state `s`. -/
def fetchJoke (jokeSourceIndex : Nat) (up : Nat → Attempt) (w : World) (s : AppState) :
    AppState × World :=
  let s1 := { s with isLoading := true }
  let s2 := { s1 with error := none }
  let s3 := { s2 with joke := none }
  let r := if jokeSourceIndex = 0 then jokeApiLoop up 0 w else dadJoke up w
  let finalJoke := r.1.1
  let finalError := r.1.2
  let s4 := { s3 with joke := finalJoke }
  let s5 := if truthyStr finalError then { s4 with error := finalError } else s4
  let s6 := { s5 with isLoading := false }
  (s6, r.2)

/-! ## Vocabulary of the statements -/

/-- The attempt fails: `fetch` rejects, the status is not 2xx, or the body
does not decode. -/
def failed (a : Attempt) : Bool :=
  match attemptResult a with
  | .ok _ => false
  | .error _ => true

/-- The response of the attempt has a 2xx status. -/
def is2xx : Attempt → Bool
  | .netErr _ => false
  | .response status _ => statusOk status

/-- The decoded JSON body of the response of the attempt, if it has one. -/
def decodedBody : Attempt → Option Json
  | .netErr _ => none
  | .response _ (.ok v) => some v
  | .response _ (.error _) => none

/-- The event is an HTTP request. -/
def Event.isRequest : Event → Bool
  | .request _ _ => true
  | _ => false

/-- The event is a wait. -/
def Event.isWait : Event → Bool
  | .wait _ => true
  | _ => false

/-- The event is an invocation of the fetcher by `fetchJoke`. -/
def Event.isCall : Event → Bool
  | .call _ _ => true
  | _ => false

/-- The event is a wait of exactly `ms` milliseconds. -/
def Event.isWaitOf (ms : Nat) : Event → Bool
  | .wait (.finite m) => m == ms
  | _ => false

/-- The events added to the trace between world `w` and the later world `w1`. -/
def eventsSince (w w1 : World) : List Event :=
  w1.trace.drop w.trace.length

/-- The events of a fetcher run entered at loop index `i` in which `f`
attempts fail, each followed by its wait, before one last attempt. -/
def backoffTrace (url : String) (headers : Headers) (delay : Nat) : Nat → Nat → List Event
  | _, 0 => [.request url headers]
  | i, f + 1 =>
    .request url headers :: .wait (jsDelay delay i) :: backoffTrace url headers delay (i + 1) f

/-- The upstream that answers the first requests with the outcomes of
`script`, in order, and rejects every later request. -/
def upstreamOf (script : List Attempt) : Nat → Attempt :=
  fun i => script.getD i (.netErr "Failed to fetch")

/-- The world before any request. -/
def World.start : World :=
  { next := 0, trace := [] }

/-- Two 2xx responses: the body of the first does not decode, the body of
the second decodes to the string `B`. -/
def undecodableThenDecoded : List Attempt :=
  [.response 200 (.error "Unexpected token < in JSON at position 0"),
   .response 200 (.ok (.str "B"))]

/-- The text `fetchJoke` sets as error on the JokeAPI path (line 106). -/
def jokeApiFailure : String := "Failed to load a joke from JokeAPI."

/-- The text `fetchJoke` sets as error on the Dad Joke path (line 128). -/
def dadJokeFailure : String := "Failed to load a joke from Dad Joke API."

/-- The decoded body carries the application-level error flag. -/
def flagged (b : Json) : Bool :=
  truthyProp (b.field "error")

/-- The decoded body is malformed: no error flag, and not a `single` type
with a non-empty joke field. -/
def malformed (b : Json) : Bool :=
  !flagged b && !(isSingle (b.field "type") && truthyProp (b.field "joke"))

/-- The decoded body is a well-formed single-joke body with text `t`. -/
def wellFormedSingle (b : Json) (t : String) : Prop :=
  flagged b = false ∧ b.field "type" = some (.str "single") ∧ b.field "joke" = some (.str t)
    ∧ t ≠ ""

/-- One invocation of the fetcher that returns a body: the transport attempts
that fail first, then a response with the given status and decoded body. -/
structure Delivery where
  failures : List Attempt
  status : Nat
  body : Json

/-- The upstream outcomes consumed by the invocation. -/
def Delivery.script (d : Delivery) : List Attempt :=
  d.failures ++ [.response d.status (.ok d.body)]

/-- The invocation returns its body within the default budget: fewer than 5
attempts fail first, each of them a failure, and the last status is 2xx. -/
def Delivery.valid (d : Delivery) : Prop :=
  d.failures.length < defaultRetries ∧ (∀ a, a ∈ d.failures → failed a = true)
    ∧ statusOk d.status = true

/-- The upstream outcomes consumed by successive invocations. -/
def scriptOf (ds : List Delivery) : List Attempt :=
  ds.flatMap Delivery.script

/-- From request index `k` on, the upstream answers with the outcomes of
`script`, in order. -/
def Plays (up : Nat → Attempt) (k : Nat) (script : List Attempt) : Prop :=
  ∀ i a, script.get? i = some a → up (k + i) = a

/-- A body with the error flag and a message. -/
def flaggedBody : Json :=
  .obj [("error", .bool true), ("message", .str "Rate limit reached")]

/-- A well-formed single-joke body with text `ha`. -/
def singleJokeBody : Json :=
  .obj [("error", .bool false), ("type", .str "single"), ("joke", .str "ha")]

/-- A 200 response whose body is the JSON text `null`, then a 200 response
with a well-formed single-joke body. -/
def nullThenJoke : List Attempt :=
  [.response 200 (.ok .null), .response 200 (.ok singleJokeBody)]

/-- A 200 response whose body is the JSON text `null`, then a 200 response
with a body carrying the error flag. -/
def nullThenFlagged : List Attempt :=
  [.response 200 (.ok .null), .response 200 (.ok flaggedBody)]

/-- A 200 response with the empty object, then five rejected requests. -/
def malformedThenOffline : List Attempt :=
  scriptOf [{ failures := [], status := 200, body := .obj [] }]
    ++ List.replicate 5 (.netErr "offline")

/-! ## Properties of `fetchWithBackoff` -/

theorem failed_iff (a : Attempt) : failed a = true ↔ ∃ e, attemptResult a = .error e := by
  unfold failed
  cases h : attemptResult a <;> simp

theorem jsDelay_finite (delay i : Nat) (hi : i < 1024) (hd : delay * 2 ^ i < 2 ^ 1024) :
    jsDelay delay i = .finite (delay * 2 ^ i) := by
  unfold jsDelay
  rw [if_pos hi, if_pos hd]

theorem small_lt_doubleLimit (m k : Nat) (hm : m < 2 ^ k) (hk : k ≤ 1024) : m < 2 ^ 1024 := by
  apply Nat.lt_of_lt_of_le hm
  apply Nat.pow_le_pow_right
  · exact Nat.succ_pos 1
  · exact hk

theorem jsDelay_default_ne_short (i : Nat) : jsDelay defaultDelay i ≠ .finite 500 := by
  unfold jsDelay
  split
  · split
    · intro h
      injection h with h
      have hpos : 0 < 2 ^ i := Nat.pow_pos (by decide)
      have : 1000 * 1 ≤ 1000 * 2 ^ i := Nat.mul_le_mul_left 1000 hpos
      unfold defaultDelay at h
      omega
    · intro h; cases h
  · split
    · intro h; cases h
    · intro h; cases h

theorem eventsSince_append (w w1 : World) (evs : List Event)
    (h : w1.trace = w.trace ++ evs) : eventsSince w w1 = evs := by
  simp [eventsSince, h]

/-- A run of the loop entered at index `i` whose first `f` attempts fail and
whose next attempt succeeds with `v`, with `i + f < retries`. -/
theorem fetchLoop_returns (up : Nat → Attempt) (url : String) (headers : Headers)
    (retries delay : Nat) (v : Json) :
    ∀ (f i : Nat) (w : World), i + f < retries →
      (∀ k, k < f → failed (up (w.next + k)) = true) →
      attemptResult (up (w.next + f)) = .ok v →
      fetchLoop up url headers retries delay i w =
        (.ok v, { next := w.next + f + 1,
                  trace := w.trace ++ backoffTrace url headers delay i f }) := by
  intro f
  induction f with
  | zero =>
    intro i w hi _ hok
    rw [fetchLoop]
    simp only [Nat.add_zero] at hi hok
    simp [hi, hok, World.fetch, backoffTrace]
  | succ f ih =>
    intro i w hi hfail hok
    rw [fetchLoop]
    have h0 : failed (up w.next) = true := by simpa using hfail 0 (Nat.succ_pos f)
    obtain ⟨e, he⟩ := (failed_iff _).1 h0
    have hlt : i < retries := by omega
    have hne : ¬ i = retries - 1 := by omega
    simp only [hlt, if_true, he, hne, if_false]
    have hstep := ih (i + 1) ((w.fetch url headers).emit (.wait (jsDelay delay i)))
      (by omega)
      (by
        intro k hk
        have := hfail (k + 1) (by omega)
        simpa [World.fetch, World.emit, Nat.add_assoc, Nat.add_comm 1 k] using this)
      (by simpa [World.fetch, World.emit, Nat.add_assoc, Nat.add_comm 1 f] using hok)
    rw [hstep]
    simp [World.fetch, World.emit, backoffTrace]
    omega

/-- A run of the loop entered at index `i` in which every remaining attempt
fails, the last one (attempt `retries - 1`) with error `e`. -/
theorem fetchLoop_exhausts (up : Nat → Attempt) (url : String) (headers : Headers)
    (retries delay : Nat) (e : JsError) :
    ∀ (f i : Nat) (w : World), i + f + 1 = retries →
      (∀ k, k < f → failed (up (w.next + k)) = true) →
      attemptResult (up (w.next + f)) = .error e →
      fetchLoop up url headers retries delay i w =
        (.error e, { next := w.next + f + 1,
                     trace := w.trace ++ backoffTrace url headers delay i f }) := by
  intro f
  induction f with
  | zero =>
    intro i w hi _ herr
    rw [fetchLoop]
    simp only [Nat.add_zero] at hi herr
    have hlt : i < retries := by omega
    have heq : i = retries - 1 := by omega
    simp only [hlt, if_true, herr]
    simp [← heq, World.fetch, backoffTrace]
  | succ f ih =>
    intro i w hi hfail herr
    rw [fetchLoop]
    have h0 : failed (up w.next) = true := by simpa using hfail 0 (Nat.succ_pos f)
    obtain ⟨e0, he0⟩ := (failed_iff _).1 h0
    have hlt : i < retries := by omega
    have hne : ¬ i = retries - 1 := by omega
    simp only [hlt, if_true, he0, hne, if_false]
    have hstep := ih (i + 1) ((w.fetch url headers).emit (.wait (jsDelay delay i)))
      (by omega)
      (by
        intro k hk
        have := hfail (k + 1) (by omega)
        simpa [World.fetch, World.emit, Nat.add_assoc, Nat.add_comm 1 k] using this)
      (by simpa [World.fetch, World.emit, Nat.add_assoc, Nat.add_comm 1 f] using herr)
    rw [hstep]
    simp [World.fetch, World.emit, backoffTrace]
    omega

/-! ### The shape of a backoff trace -/

theorem backoffTrace_length (url : String) (headers : Headers) (delay : Nat) :
    ∀ (f i : Nat), (backoffTrace url headers delay i f).length = 2 * f + 1 := by
  intro f
  induction f with
  | zero => intro i; simp [backoffTrace]
  | succ f ih => intro i; simp [backoffTrace, ih]; omega

theorem backoffTrace_request (url : String) (headers : Headers) (delay : Nat) :
    ∀ (f i j : Nat), j ≤ f →
      (backoffTrace url headers delay i f).get? (2 * j) = some (.request url headers) := by
  intro f
  induction f with
  | zero =>
    intro i j hj
    have : j = 0 := by omega
    subst this
    simp [backoffTrace]
  | succ f ih =>
    intro i j hj
    cases j with
    | zero => simp [backoffTrace]
    | succ j =>
      have h2 : 2 * (j + 1) = 2 * j + 1 + 1 := by omega
      rw [h2]
      simp only [backoffTrace, List.get?_cons_succ]
      exact ih (i + 1) j (by omega)

theorem backoffTrace_wait (url : String) (headers : Headers) (delay : Nat) :
    ∀ (f i j : Nat), j < f →
      (backoffTrace url headers delay i f).get? (2 * j + 1) =
        some (.wait (jsDelay delay (i + j))) := by
  intro f
  induction f with
  | zero => intro i j hj; omega
  | succ f ih =>
    intro i j hj
    cases j with
    | zero => simp [backoffTrace]
    | succ j =>
      have h2 : 2 * (j + 1) + 1 = (2 * j + 1) + 1 + 1 := by omega
      rw [h2]
      simp only [backoffTrace, List.get?_cons_succ]
      rw [ih (i + 1) j (by omega)]
      have h3 : i + 1 + j = i + (j + 1) := by omega
      rw [h3]

theorem backoffTrace_requests (url : String) (headers : Headers) (delay : Nat) :
    ∀ (f i : Nat), (backoffTrace url headers delay i f).countP Event.isRequest = f + 1 := by
  intro f
  induction f with
  | zero => intro i; simp [backoffTrace, Event.isRequest]
  | succ f ih => intro i; simp [backoffTrace, Event.isRequest, Event.isWait, ih]

theorem backoffTrace_waits (url : String) (headers : Headers) (delay : Nat) :
    ∀ (f i : Nat), (backoffTrace url headers delay i f).countP Event.isWait = f := by
  intro f
  induction f with
  | zero => intro i; simp [backoffTrace, Event.isWait]
  | succ f ih => intro i; simp [backoffTrace, Event.isRequest, Event.isWait, ih]

theorem backoffTrace_calls (url : String) (headers : Headers) (delay : Nat) :
    ∀ (f i : Nat), (backoffTrace url headers delay i f).countP Event.isCall = 0 := by
  intro f
  induction f with
  | zero => intro i; simp [backoffTrace, Event.isCall]
  | succ f ih => intro i; simp [backoffTrace, Event.isCall, ih]

theorem backoffTrace_last (url : String) (headers : Headers) (delay : Nat) :
    ∀ (f i : Nat), (backoffTrace url headers delay i f).getLast? = some (.request url headers) := by
  intro f
  induction f with
  | zero => intro i; simp [backoffTrace]
  | succ f ih =>
    intro i
    have hne : backoffTrace url headers delay (i + 1) f ≠ [] := by
      intro h
      have := backoffTrace_length url headers delay f (i + 1)
      rw [h] at this
      simp at this
    have hrec := ih (i + 1)
    simp only [backoffTrace]
    cases hrest : backoffTrace url headers delay (i + 1) f with
    | nil => exact absurd hrest hne
    | cons x xs =>
      rw [hrest] at hrec
      rw [List.getLast?_cons_cons, List.getLast?_cons_cons]
      exact hrec

/-! ### Every run of the loop -/

theorem attemptResult_ok_iff (a : Attempt) (v : Json) :
    attemptResult a = .ok v ↔ is2xx a = true ∧ decodedBody a = some v := by
  cases a with
  | netErr msg => simp [attemptResult, is2xx, decodedBody]
  | response status body =>
    cases body with
    | ok b =>
      by_cases hs : statusOk status = true <;> simp [attemptResult, is2xx, decodedBody, hs]
    | error msg =>
      by_cases hs : statusOk status = true <;> simp [attemptResult, is2xx, decodedBody, hs]

/-- Among the outcomes `k0, ..., k0 + m` either one is the first not to fail,
or all of them fail. -/
theorem first_success_or_all_fail (up : Nat → Attempt) (k0 : Nat) :
    ∀ m : Nat,
      (∃ f, f ≤ m ∧ (∀ k, k < f → failed (up (k0 + k)) = true) ∧ failed (up (k0 + f)) = false)
      ∨ (∀ k, k ≤ m → failed (up (k0 + k)) = true) := by
  intro m
  induction m with
  | zero =>
    cases h : failed (up (k0 + 0)) with
    | false => exact Or.inl ⟨0, Nat.le_refl 0, fun k hk => absurd hk (Nat.not_lt_zero k), h⟩
    | true =>
      refine Or.inr ?_
      intro k hk
      have : k = 0 := by omega
      subst this
      exact h
  | succ m ih =>
    rcases ih with ⟨f, hf, hbefore, hat⟩ | hall
    · exact Or.inl ⟨f, by omega, hbefore, hat⟩
    · cases h : failed (up (k0 + (m + 1))) with
      | false => exact Or.inl ⟨m + 1, Nat.le_refl _, fun k hk => hall k (by omega), h⟩
      | true =>
        refine Or.inr ?_
        intro k hk
        by_cases hk1 : k = m + 1
        · subst hk1; exact h
        · exact hall k (by omega)

theorem not_failed_iff (a : Attempt) : failed a = false ↔ ∃ v, attemptResult a = .ok v := by
  unfold failed
  cases h : attemptResult a <;> simp

/-- Every run of the loop entered at an index `i < retries`: some number `f`
of attempts fail, then either attempt `f` succeeds and its value is returned,
or attempt `f` is the last allowed one and its error is thrown; in both cases
`f + 1` requests were issued and the events are those of `backoffTrace`. -/
theorem fetchLoop_run (up : Nat → Attempt) (url : String) (headers : Headers)
    (retries delay i : Nat) (w : World) (hi : i < retries) :
    ∃ f, i + f < retries
      ∧ (∀ k, k < f → failed (up (w.next + k)) = true)
      ∧ (fetchLoop up url headers retries delay i w).2 =
          { next := w.next + f + 1, trace := w.trace ++ backoffTrace url headers delay i f }
      ∧ ((fetchLoop up url headers retries delay i w).1 = attemptResult (up (w.next + f)))
      ∧ (failed (up (w.next + f)) = true → i + f + 1 = retries) := by
  rcases first_success_or_all_fail up w.next (retries - i - 1) with ⟨f, hf, hbefore, hat⟩ | hall
  · obtain ⟨v, hv⟩ := (not_failed_iff _).1 hat
    have hrun := fetchLoop_returns up url headers retries delay v f i w (by omega) hbefore hv
    refine ⟨f, by omega, hbefore, ?_, ?_, ?_⟩
    · rw [hrun]
    · rw [hrun, hv]
    · intro hfail
      rw [hat] at hfail
      exact absurd hfail (by decide)
  · have hlast := hall (retries - i - 1) (Nat.le_refl _)
    obtain ⟨e, he⟩ := (failed_iff _).1 hlast
    have hrun := fetchLoop_exhausts up url headers retries delay e (retries - i - 1) i w
      (by omega) (fun k hk => hall k (by omega)) he
    refine ⟨retries - i - 1, by omega, fun k hk => hall k (by omega), ?_, ?_, ?_⟩
    · rw [hrun]
    · rw [hrun, he]
    · intro _
      omega

/-- With no attempt allowed the loop body is skipped. -/
theorem fetchLoop_skipped (up : Nat → Attempt) (url : String) (headers : Headers)
    (retries delay i : Nat) (w : World) (hi : ¬ i < retries) :
    fetchLoop up url headers retries delay i w = (.error .exhausted, w) := by
  rw [fetchLoop]
  simp [hi]

/-! ### The claims on `fetchWithBackoff` -/

/-- C2, as stated, fails: with two allowed attempts and an upstream whose
first response is 2xx with an undecodable body and whose second is 2xx with
the decoded body `B`, the fetcher returns `B`, which is not the decoded body of
the first 2xx response of the sequence (that response has none). -/
theorem fetchWithBackoff_first_2xx_counterexample :
    (fetchWithBackoff (upstreamOf undecodableThenDecoded) "u" [] 2 1000 World.start).1
        = .ok (.str "B")
    ∧ ¬ ∃ j, (∀ k, k < j → is2xx (upstreamOf undecodableThenDecoded k) = false)
        ∧ is2xx (upstreamOf undecodableThenDecoded j) = true
        ∧ decodedBody (upstreamOf undecodableThenDecoded j) = some (.str "B") := by
  constructor
  · simp [fetchWithBackoff, fetchLoop, upstreamOf, undecodableThenDecoded, attemptResult,
      statusOk, World.fetch, World.emit, World.start]
  · rintro ⟨j, hbefore, _, hbody⟩
    cases j with
    | zero => simp [upstreamOf, undecodableThenDecoded, decodedBody] at hbody
    | succ j =>
      have h0 := hbefore 0 (Nat.succ_pos j)
      simp [upstreamOf, undecodableThenDecoded, is2xx, statusOk] at h0

/-- C2 (amended): when `fetchWithBackoff` returns a value, that value is the
decoded JSON body of the first attempt that does not fail, that is of the
first 2xx response whose body decodes: every earlier attempt failed, the
attempt is within the budget, exactly one request per attempt was issued up to
it and the last event of the call is the request of that attempt. -/
theorem fetchWithBackoff_returns_first_decoded (up : Nat → Attempt) (url : String)
    (headers : Headers) (retries delay : Nat) (w w1 : World) (v : Json)
    (h : fetchWithBackoff up url headers retries delay w = (.ok v, w1)) :
    ∃ f, f < retries
      ∧ (∀ k, k < f → failed (up (w.next + k)) = true)
      ∧ is2xx (up (w.next + f)) = true
      ∧ decodedBody (up (w.next + f)) = some v
      ∧ w1.next = w.next + f + 1
      ∧ w1.trace = w.trace ++ backoffTrace url headers delay 0 f
      ∧ (eventsSince w w1).countP Event.isRequest = f + 1
      ∧ (eventsSince w w1).getLast? = some (.request url headers) := by
  unfold fetchWithBackoff at h
  by_cases hr : 0 < retries
  · obtain ⟨f, hf, hbefore, hworld, hres, _⟩ := fetchLoop_run up url headers retries delay 0 w hr
    rw [h] at hworld hres
    simp only at hworld hres
    obtain ⟨h2xx, hbody⟩ := (attemptResult_ok_iff _ v).1 hres.symm
    have htrace : w1.trace = w.trace ++ backoffTrace url headers delay 0 f := by rw [hworld]
    refine ⟨f, by omega, hbefore, h2xx, hbody, by rw [hworld], htrace, ?_, ?_⟩
    · rw [eventsSince_append w w1 _ htrace]
      exact backoffTrace_requests url headers delay f 0
    · rw [eventsSince_append w w1 _ htrace]
      exact backoffTrace_last url headers delay f 0
  · rw [fetchLoop_skipped up url headers retries delay 0 w hr] at h
    simp at h

/-- Witness of C2 (amended): a network error, then a 2xx response with the
decoded body `B`. -/
theorem fetchWithBackoff_returns_first_decoded_witness :
    ∃ f, f < 5
      ∧ (∀ k, k < f →
          failed (upstreamOf [.netErr "offline", .response 200 (.ok (.str "B"))]
            (World.start.next + k)) = true)
      ∧ is2xx (upstreamOf [.netErr "offline", .response 200 (.ok (.str "B"))]
          (World.start.next + f)) = true
      ∧ decodedBody (upstreamOf [.netErr "offline", .response 200 (.ok (.str "B"))]
          (World.start.next + f)) = some (.str "B")
      ∧ (2 : Nat) = World.start.next + f + 1
      ∧ [Event.request "u" [], Event.wait (.finite 1000), Event.request "u" []]
          = World.start.trace ++ backoffTrace "u" [] 1000 0 f
      ∧ (eventsSince World.start
            { next := 2, trace := [.request "u" [], .wait (.finite 1000), .request "u" []] }).countP
          Event.isRequest = f + 1
      ∧ (eventsSince World.start
            { next := 2, trace := [.request "u" [], .wait (.finite 1000), .request "u" []] }).getLast?
          = some (.request "u" []) :=
  fetchWithBackoff_returns_first_decoded
    (upstreamOf [.netErr "offline", .response 200 (.ok (.str "B"))]) "u" [] 5 1000
    World.start { next := 2, trace := [.request "u" [], .wait (.finite 1000), .request "u" []] } (.str "B")
    (by
      have hd : jsDelay 1000 0 = .finite 1000 := by
        rw [jsDelay_finite 1000 0 (by decide)
          (small_lt_doubleLimit _ 10 (by decide) (by decide))]
        rfl
      simp [fetchWithBackoff, fetchLoop, upstreamOf, attemptResult, statusOk, World.fetch,
        World.emit, World.start, hd])

/-- A call in which all `n` attempts fail, `n ≥ 1`: the result and the world
it ends in. -/
theorem fetchWithBackoff_all_fail (up : Nat → Attempt) (url : String) (headers : Headers)
    (n delay : Nat) (w : World) (hn : 1 ≤ n)
    (hall : ∀ k, k < n → failed (up (w.next + k)) = true) :
    fetchWithBackoff up url headers n delay w =
      (attemptResult (up (w.next + (n - 1))),
        { next := w.next + n, trace := w.trace ++ backoffTrace url headers delay 0 (n - 1) }) := by
  obtain ⟨e, he⟩ := (failed_iff _).1 (hall (n - 1) (by omega))
  have hrun := fetchLoop_exhausts up url headers n delay e (n - 1) 0 w (by omega)
    (fun k hk => hall k (by omega)) he
  unfold fetchWithBackoff
  rw [hrun, he]
  have : w.next + (n - 1) + 1 = w.next + n := by omega
  rw [this]

/-- C3, as stated, fails: with 1026 allowed attempts that all fail and base
delay 1, the wait between attempt 1024 and attempt 1025 is not `1 * 2^1024`
milliseconds: `Math.pow(2, 1024)` is `Infinity`, and the delay requested is
`Infinity`. -/
theorem fetchWithBackoff_delay_overflow_counterexample :
    (∀ k, k < 1026 → failed (upstreamOf [] (World.start.next + k)) = true)
    ∧ (eventsSince World.start
          (fetchWithBackoff (upstreamOf []) "u" [] 1026 1 World.start).2).get? (2 * 1024 + 1)
        = some (.wait .infinity)
    ∧ (eventsSince World.start
          (fetchWithBackoff (upstreamOf []) "u" [] 1026 1 World.start).2).get? (2 * 1024 + 1)
        ≠ some (.wait (.finite (1 * 2 ^ 1024))) := by
  have hall : ∀ k, k < 1026 → failed (upstreamOf [] (World.start.next + k)) = true :=
    fun _ _ => rfl
  have hrun := fetchWithBackoff_all_fail (upstreamOf []) "u" [] 1026 1 World.start
    (by decide) hall
  have hev : eventsSince World.start (fetchWithBackoff (upstreamOf []) "u" [] 1026 1 World.start).2
      = backoffTrace "u" [] 1 0 (1026 - 1) := by
    apply eventsSince_append
    rw [hrun]
  have hwait := backoffTrace_wait "u" [] 1 (1026 - 1) 0 1024 (by decide)
  have hover : jsDelay 1 (0 + 1024) = .infinity := by
    unfold jsDelay
    rw [if_neg (by decide), if_neg (by decide)]
  rw [hover] at hwait
  refine ⟨hall, ?_, ?_⟩
  · rw [hev]
    exact hwait
  · rw [hev, hwait]
    intro h
    injection h with h
    injection h with h
    cases h

/-- C3 (amended): when all `n ≥ 1` attempts fail, the events of the call are
`2n - 1` in number, the event at position `2i` is the request of attempt `i`,
there are exactly `n - 1` waits and the last event is the request of the final
attempt, so no wait follows it; the event at position `2i + 1`, between
attempt `i` and attempt `i + 1`, is a wait of exactly `d * 2^i` milliseconds
whenever that product is computed without overflow (`i < 1024` and
`d * 2^i < 2^1024`), hence for every wait of the call when `n ≤ 1025` and
`d * 2^(n - 2) < 2^1024`. -/
theorem fetchWithBackoff_exhausted_delays (up : Nat → Attempt) (url : String)
    (headers : Headers) (n d : Nat) (w : World) (hn : 1 ≤ n)
    (hall : ∀ k, k < n → failed (up (w.next + k)) = true) :
    (fetchWithBackoff up url headers n d w).2.trace
        = w.trace ++ eventsSince w (fetchWithBackoff up url headers n d w).2
    ∧ (eventsSince w (fetchWithBackoff up url headers n d w).2).length = 2 * n - 1
    ∧ (eventsSince w (fetchWithBackoff up url headers n d w).2).countP Event.isWait = n - 1
    ∧ (∀ i, i < n →
        (eventsSince w (fetchWithBackoff up url headers n d w).2).get? (2 * i)
          = some (.request url headers))
    ∧ (∀ i, i + 1 < n → i < 1024 → d * 2 ^ i < 2 ^ 1024 →
        (eventsSince w (fetchWithBackoff up url headers n d w).2).get? (2 * i + 1)
          = some (.wait (.finite (d * 2 ^ i))))
    ∧ (n ≤ 1025 → d * 2 ^ (n - 2) < 2 ^ 1024 → ∀ i, i + 1 < n →
        (eventsSince w (fetchWithBackoff up url headers n d w).2).get? (2 * i + 1)
          = some (.wait (.finite (d * 2 ^ i))))
    ∧ (eventsSince w (fetchWithBackoff up url headers n d w).2).getLast?
        = some (.request url headers) := by
  have hrun := fetchWithBackoff_all_fail up url headers n d w hn hall
  have hev : eventsSince w (fetchWithBackoff up url headers n d w).2
      = backoffTrace url headers d 0 (n - 1) := by
    apply eventsSince_append
    rw [hrun]
  have hvalue : ∀ i, i + 1 < n → i < 1024 → d * 2 ^ i < 2 ^ 1024 →
      (backoffTrace url headers d 0 (n - 1)).get? (2 * i + 1)
        = some (.wait (.finite (d * 2 ^ i))) := by
    intro i hi h1024 hd
    have := backoffTrace_wait url headers d (n - 1) 0 i (by omega)
    rw [Nat.zero_add, jsDelay_finite d i h1024 hd] at this
    exact this
  rw [hev]
  refine ⟨by rw [hrun], ?_, ?_, ?_, hvalue, ?_, ?_⟩
  · rw [backoffTrace_length]; omega
  · exact backoffTrace_waits url headers d (n - 1) 0
  · intro i hi
    exact backoffTrace_request url headers d (n - 1) 0 i (by omega)
  · intro hbound hd i hi
    refine hvalue i hi (by omega) (Nat.lt_of_le_of_lt ?_ hd)
    exact Nat.mul_le_mul_left d (Nat.pow_le_pow_right (by decide) (by omega))
  · exact backoffTrace_last url headers d (n - 1) 0

/-- Witness of C3 (amended): three attempts rejected by the network, base
delay 1000: the call waits twice, 2000 ms between the second and the third
attempt, and not after the third attempt. -/
theorem fetchWithBackoff_exhausted_delays_witness :
    (1 ≤ 3 ∧ ∀ k, k < 3 → failed (upstreamOf [] (World.start.next + k)) = true)
    ∧ (eventsSince World.start (fetchWithBackoff (upstreamOf []) "u" [] 3 1000 World.start).2).length
        = 2 * 3 - 1
    ∧ (eventsSince World.start
          (fetchWithBackoff (upstreamOf []) "u" [] 3 1000 World.start).2).countP Event.isWait
        = 3 - 1
    ∧ (eventsSince World.start (fetchWithBackoff (upstreamOf []) "u" [] 3 1000 World.start).2).get?
          (2 * 1 + 1) = some (.wait (.finite (1000 * 2 ^ 1)))
    ∧ (eventsSince World.start
          (fetchWithBackoff (upstreamOf []) "u" [] 3 1000 World.start).2).getLast?
        = some (.request "u" []) :=
  have hall : ∀ k, k < 3 → failed (upstreamOf [] (World.start.next + k)) = true :=
    fun _ _ => rfl
  have h := fetchWithBackoff_exhausted_delays (upstreamOf []) "u" [] 3 1000 World.start
    (by decide) hall
  ⟨⟨by decide, hall⟩, h.2.1, h.2.2.1,
    h.2.2.2.2.1 1 (by decide) (by decide)
      (small_lt_doubleLimit _ 11 (by decide) (by decide)),
    h.2.2.2.2.2.2⟩

/-- C4: when none of the `n` allowed attempts succeeds, `fetchWithBackoff`
returns no value and has issued exactly `n` requests; for `n ≥ 1` what it
throws is the failure of the final attempt, and for `n = 0` it throws the
terminal failure of line 22 with the world unchanged, so without a request. -/
theorem fetchWithBackoff_exhausted_fails (up : Nat → Attempt) (url : String)
    (headers : Headers) (n d : Nat) (w : World)
    (hall : ∀ k, k < n → failed (up (w.next + k)) = true) :
    (∃ e, (fetchWithBackoff up url headers n d w).1 = .error e)
    ∧ (fetchWithBackoff up url headers n d w).2.next = w.next + n
    ∧ (eventsSince w (fetchWithBackoff up url headers n d w).2).countP Event.isRequest = n
    ∧ (1 ≤ n →
        (fetchWithBackoff up url headers n d w).1 = attemptResult (up (w.next + (n - 1))))
    ∧ (n = 0 → fetchWithBackoff up url headers n d w = (.error .exhausted, w)) := by
  by_cases hn : 1 ≤ n
  · have hrun := fetchWithBackoff_all_fail up url headers n d w hn hall
    obtain ⟨e, he⟩ := (failed_iff _).1 (hall (n - 1) (by omega))
    have hev : eventsSince w (fetchWithBackoff up url headers n d w).2
        = backoffTrace url headers d 0 (n - 1) := by
      apply eventsSince_append
      rw [hrun]
    refine ⟨⟨e, by rw [hrun, he]⟩, by rw [hrun], ?_, fun _ => by rw [hrun], fun h0 => by omega⟩
    rw [hev, backoffTrace_requests]
    omega
  · have h0 : n = 0 := by omega
    subst h0
    have hrun : fetchWithBackoff up url headers 0 d w = (.error .exhausted, w) :=
      fetchLoop_skipped up url headers 0 d 0 w (by omega)
    refine ⟨⟨.exhausted, by rw [hrun]⟩, by rw [hrun]; rfl, ?_, fun h => absurd h hn,
      fun _ => hrun⟩
    rw [hrun]
    simp [eventsSince]

/-- Witness of C4: two allowed attempts, a 503 response and then a rejected
request: the call throws the failure of the second attempt. -/
theorem fetchWithBackoff_exhausted_fails_witness :
    (∀ k, k < 2 →
      failed (upstreamOf [.response 503 (.ok .null), .netErr "offline"]
        (World.start.next + k)) = true)
    ∧ (fetchWithBackoff (upstreamOf [.response 503 (.ok .null), .netErr "offline"])
          "u" [] 2 1000 World.start).1
        = attemptResult (upstreamOf [.response 503 (.ok .null), .netErr "offline"]
            (World.start.next + (2 - 1)))
    ∧ (fetchWithBackoff (upstreamOf [.response 503 (.ok .null), .netErr "offline"])
          "u" [] 2 1000 World.start).2.next = World.start.next + 2 :=
  have hall : ∀ k, k < 2 →
      failed (upstreamOf [.response 503 (.ok .null), .netErr "offline"]
        (World.start.next + k)) = true := by
    intro k hk
    interval_cases k <;> rfl
  have h := fetchWithBackoff_exhausted_fails
    (upstreamOf [.response 503 (.ok .null), .netErr "offline"]) "u" [] 2 1000 World.start hall
  ⟨hall, h.2.2.2.1 (by decide), h.2.1⟩

/-! ## The fetcher as called by `fetchJoke` -/

theorem backoffTrace_no_short_wait (url : String) (headers : Headers) :
    ∀ (f i : Nat),
      (backoffTrace url headers defaultDelay i f).countP (Event.isWaitOf 500) = 0 := by
  intro f
  induction f with
  | zero => intro i; simp [backoffTrace, Event.isWaitOf]
  | succ f ih =>
    intro i
    have hne := jsDelay_default_ne_short i
    have hw : Event.isWaitOf 500 (.wait (jsDelay defaultDelay i)) = false := by
      cases hj : jsDelay defaultDelay i with
      | finite m =>
        have : m ≠ 500 := by
          intro hm
          rw [hj, hm] at hne
          exact hne rfl
        simp [Event.isWaitOf, this]
      | infinity => rfl
      | nan => rfl
    have hr : Event.isWaitOf 500 (.request url headers) = false := rfl
    simp only [backoffTrace, List.countP_cons, hr, hw, ih]
    simp

/-- Every invocation of the fetcher by `fetchJoke`: it records the call,
issues between one and five requests, returns the result of its last attempt,
and throws only when five attempts failed. -/
theorem callFetcher_run (up : Nat → Attempt) (url : String) (headers : Headers) (w : World) :
    ∃ f, f < 5
      ∧ (∀ k, k < f → failed (up (w.next + k)) = true)
      ∧ (callFetcher up url headers w).2 =
          { next := w.next + f + 1,
            trace := w.trace ++ .call url headers :: backoffTrace url headers defaultDelay 0 f }
      ∧ (callFetcher up url headers w).1 = attemptResult (up (w.next + f))
      ∧ (failed (up (w.next + f)) = true → f + 1 = 5) := by
  obtain ⟨f, hf, hbefore, hworld, hres, hlast⟩ :=
    fetchLoop_run up url headers defaultRetries defaultDelay 0 (w.emit (.call url headers))
      (by decide)
  refine ⟨f, by simpa [defaultRetries] using hf, hbefore, ?_, hres, ?_⟩
  · unfold callFetcher fetchWithBackoff
    rw [hworld]
    simp [World.emit]
  · intro h
    have := hlast h
    simpa [defaultRetries] using this

theorem plays_append (up : Nat → Attempt) (k : Nat) (s1 s2 : List Attempt)
    (h : Plays up k (s1 ++ s2)) : Plays up k s1 ∧ Plays up (k + s1.length) s2 := by
  constructor
  · intro i a hi
    apply h i a
    have hlt : i < s1.length := by
      by_contra hge
      rw [List.get?_eq_none.2 (by omega)] at hi
      exact Option.noConfusion hi
    rw [List.get?_eq_getElem?] at hi ⊢
    rw [List.getElem?_append_left hlt]
    exact hi
  · intro i a hi
    have := h (s1.length + i) a (by
      rw [List.get?_eq_getElem?] at hi ⊢
      rw [List.getElem?_append_right (by omega)]
      simpa using hi)
    rw [Nat.add_assoc]
    exact this

/-- An invocation whose upstream plays a valid delivery returns its body. -/
theorem callFetcher_delivers (up : Nat → Attempt) (url : String) (headers : Headers)
    (w : World) (d : Delivery) (hd : d.valid) (hup : Plays up w.next d.script) :
    callFetcher up url headers w =
      (.ok d.body,
        { next := w.next + d.script.length,
          trace := w.trace ++
            .call url headers :: backoffTrace url headers defaultDelay 0 d.failures.length }) := by
  obtain ⟨hlen, hfails, hstatus⟩ := hd
  have hbefore : ∀ k, k < d.failures.length → failed (up (w.next + k)) = true := by
    intro k hk
    have hget : d.script.get? k = some (d.failures.get ⟨k, hk⟩) := by
      unfold Delivery.script
      rw [List.get?_eq_getElem?, List.getElem?_append_left hk, ← List.get?_eq_getElem?,
        List.get?_eq_get hk]
    rw [hup k _ hget]
    exact hfails _ (List.get_mem _ _ _)
  have hat : attemptResult (up (w.next + d.failures.length)) = .ok d.body := by
    have hget : d.script.get? d.failures.length = some (.response d.status (.ok d.body)) := by
      unfold Delivery.script
      rw [List.get?_eq_getElem?, List.getElem?_append_right (Nat.le_refl _)]
      simp
    rw [hup _ _ hget]
    simp [attemptResult, hstatus]
  have hrun := fetchLoop_returns up url headers defaultRetries defaultDelay d.body
    d.failures.length 0 (w.emit (.call url headers)) (by simpa using hlen) hbefore hat
  unfold callFetcher fetchWithBackoff
  rw [hrun]
  simp [World.emit, Delivery.script, Nat.add_assoc]

/-! ## The inspection of the decoded data (lines 87-102) -/

theorem inspect_null (attempts : Nat) : inspect .null attempts = .thrown .typeError := by
  simp [inspect, Json.prop]

theorem prop_of_ne_null (b : Json) (key : String) (hb : b ≠ .null) :
    b.prop key = .ok (b.field key) := by
  cases b <;> simp [Json.prop] at hb ⊢

theorem ne_null_of_field (b : Json) (key : String) (v : Json) (h : b.field key = some v) :
    b ≠ .null := by
  intro hb
  subst hb
  simp [Json.field] at h

theorem ne_null_of_flagged (b : Json) (h : flagged b = true) : b ≠ .null := by
  intro hb
  subst hb
  simp [flagged, Json.field, truthyProp] at h

theorem inspect_flagged (b : Json) (attempts : Nat) (h : flagged b = true) :
    inspect b attempts =
      .thrown (.api (orElse (b.field "message") (.str "API reported an internal error."))) := by
  unfold inspect
  rw [prop_of_ne_null b "error" (ne_null_of_flagged b h)]
  unfold flagged at h
  simp [h]

theorem inspect_wellFormed (b : Json) (t : String) (attempts : Nat)
    (h : wellFormedSingle b t) : inspect b attempts = .accept (.str t) := by
  obtain ⟨hflag, hty, hjoke, ht⟩ := h
  unfold inspect
  rw [prop_of_ne_null b "error" (ne_null_of_field b "type" _ hty)]
  unfold flagged at hflag
  simp [hflag, hjoke, hty, isSingle, Json.truthy, ht]

theorem inspect_malformed (b : Json) (attempts : Nat) (hb : b ≠ .null)
    (h : malformed b = true) : inspect b attempts = malformedStep attempts := by
  unfold inspect
  rw [prop_of_ne_null b "error" hb]
  unfold malformed flagged at h
  simp only [Bool.and_eq_true, Bool.not_eq_true'] at h
  obtain ⟨hflag, hshape⟩ := h
  simp only [hflag]
  cases hj : b.field "joke" with
  | none => simp
  | some j =>
    rw [hj] at hshape
    simp only [truthyProp] at hshape
    simp [hshape]

/-- An accepted joke is a truthy value. -/
theorem inspect_accept_truthy (b : Json) (attempts : Nat) (j : Json)
    (h : inspect b attempts = .accept j) : j.truthy = true := by
  unfold inspect at h
  cases hp : b.prop "error" with
  | error e => simp [hp] at h
  | ok err =>
    simp only [hp] at h
    by_cases hflag : truthyProp err = true
    · simp [hflag] at h
    · simp only [hflag] at h
      cases hj : b.field "joke" with
      | none => simp [hj, malformedStep] at h; split at h <;> simp at h
      | some j1 =>
        simp only [hj] at h
        by_cases hc : (isSingle (b.field "type") && j1.truthy) = true
        · simp only [hc, if_true] at h
          cases h
          simp only [Bool.and_eq_true] at hc
          exact hc.2
        · simp only [hc] at h
          simp [malformedStep] at h
          split at h <;> simp at h

/-- The loop retries only while attempts remain. -/
theorem inspect_retry_lt (b : Json) (attempts : Nat) (h : inspect b attempts = .retry) :
    attempts < MAX_ATTEMPTS := by
  by_contra hge
  have hstep : malformedStep attempts = .thrown .incomplete := by simp [malformedStep, hge]
  unfold inspect at h
  cases hp : b.prop "error" with
  | error e => simp [hp] at h
  | ok err =>
    simp only [hp] at h
    by_cases hflag : truthyProp err = true
    · simp [hflag] at h
    · simp only [hflag] at h
      cases hj : b.field "joke" with
      | none => simp [hj, hstep] at h
      | some j1 =>
        simp only [hj] at h
        by_cases hc : (isSingle (b.field "type") && j1.truthy) = true
        · simp [hc] at h
        · simp [hc, hstep] at h

/-! ## One iteration of the JokeAPI loop -/

theorem jokeApiLoop_done (up : Nat → Attempt) (attempts : Nat) (w : World)
    (h : ¬ attempts < MAX_ATTEMPTS) : jokeApiLoop up attempts w = ((none, none), w) := by
  rw [jokeApiLoop]
  simp [h]

theorem jokeApiLoop_throws (up : Nat → Attempt) (attempts : Nat) (w w1 : World) (e : JsError)
    (h : attempts < MAX_ATTEMPTS) (hc : callFetcher up JOKE_API_URL [] w = (.error e, w1)) :
    jokeApiLoop up attempts w =
      ((none, some jokeApiFailure),
        w1.emit (.logError "Attempt failed permanently (JokeAPI):" e)) := by
  rw [jokeApiLoop]
  simp [h, hc, jokeApiFailure]

theorem jokeApiLoop_accepts (up : Nat → Attempt) (attempts : Nat) (w w1 : World)
    (data j : Json) (h : attempts < MAX_ATTEMPTS)
    (hc : callFetcher up JOKE_API_URL [] w = (.ok data, w1))
    (hi : inspect data (attempts + 1) = .accept j) :
    jokeApiLoop up attempts w = ((some j, none), w1) := by
  rw [jokeApiLoop]
  simp [h, hc, hi]

theorem jokeApiLoop_rejects (up : Nat → Attempt) (attempts : Nat) (w w1 : World)
    (data : Json) (e : JsError) (h : attempts < MAX_ATTEMPTS)
    (hc : callFetcher up JOKE_API_URL [] w = (.ok data, w1))
    (hi : inspect data (attempts + 1) = .thrown e) :
    jokeApiLoop up attempts w =
      ((none, some jokeApiFailure),
        w1.emit (.logError "Attempt failed permanently (JokeAPI):" e)) := by
  rw [jokeApiLoop]
  simp [h, hc, hi, jokeApiFailure]

theorem jokeApiLoop_retries (up : Nat → Attempt) (attempts : Nat) (w w1 : World)
    (data : Json) (h : attempts < MAX_ATTEMPTS)
    (hc : callFetcher up JOKE_API_URL [] w = (.ok data, w1))
    (hi : inspect data (attempts + 1) = .retry) :
    jokeApiLoop up attempts w =
      jokeApiLoop up (attempts + 1)
        ((w1.emit (.warn (malformedWarning (attempts + 1)))).emit (.wait (.finite 500))) := by
  rw [jokeApiLoop]
  simp only [h, if_true, hc, hi]

/-! ## Every run of the JokeAPI loop -/

/-- Every run of the loop entered with `attempts < MAX_ATTEMPTS`: it ends with
a truthy joke and no error, or with no joke and the JokeAPI failure text; its
events extend the trace, and with `m` iterations left it issues at most `5 * m`
requests, makes between one and `m` fetcher invocations and fewer than `m`
waits of 500 ms. -/
theorem jokeApiLoop_run (up : Nat → Attempt) :
    ∀ (m attempts : Nat) (w : World), attempts + m = MAX_ATTEMPTS → 0 < m →
      ∃ evs, (jokeApiLoop up attempts w).2.trace = w.trace ++ evs
        ∧ ((∃ j, (jokeApiLoop up attempts w).1 = (some j, none) ∧ j.truthy = true)
            ∨ (jokeApiLoop up attempts w).1 = (none, some jokeApiFailure))
        ∧ (jokeApiLoop up attempts w).2.next = w.next + evs.countP Event.isRequest
        ∧ evs.countP Event.isRequest ≤ 5 * m
        ∧ evs.countP (Event.isWaitOf 500) + 1 ≤ m
        ∧ 1 ≤ evs.countP Event.isCall
        ∧ evs.countP Event.isCall ≤ m := by
  intro m
  induction m with
  | zero => intro attempts w _ hm; omega
  | succ m ih =>
    intro attempts w hsum _
    have hlt : attempts < MAX_ATTEMPTS := by omega
    obtain ⟨f, hf, _, hworld, _, _⟩ := callFetcher_run up JOKE_API_URL [] w
    have hreq := backoffTrace_requests JOKE_API_URL [] defaultDelay f 0
    have hshort := backoffTrace_no_short_wait JOKE_API_URL [] f 0
    have hcalls := backoffTrace_calls JOKE_API_URL [] defaultDelay f 0
    cases hres : (callFetcher up JOKE_API_URL [] w).1 with
    | error e =>
      have hc : callFetcher up JOKE_API_URL [] w
          = (.error e, (callFetcher up JOKE_API_URL [] w).2) := by rw [← hres]
      rw [jokeApiLoop_throws up attempts w _ e hlt hc, hworld]
      refine ⟨.call JOKE_API_URL [] :: backoffTrace JOKE_API_URL [] defaultDelay 0 f
        ++ [.logError "Attempt failed permanently (JokeAPI):" e], ?_, Or.inr rfl, ?_, ?_, ?_, ?_, ?_⟩
      · simp [World.emit]
      · simp [World.emit, List.countP_cons, Event.isRequest, hreq, Nat.add_assoc]
      · simp [List.countP_cons, Event.isRequest, hreq]; omega
      · simp [List.countP_cons, Event.isWaitOf, hshort]
      · simp [List.countP_cons, Event.isCall, hcalls]
      · simp [List.countP_cons, Event.isCall, hcalls]
    | ok data =>
      have hc : callFetcher up JOKE_API_URL [] w
          = (.ok data, (callFetcher up JOKE_API_URL [] w).2) := by rw [← hres]
      cases hi : inspect data (attempts + 1) with
      | accept j =>
        rw [jokeApiLoop_accepts up attempts w _ data j hlt hc hi, hworld]
        refine ⟨.call JOKE_API_URL [] :: backoffTrace JOKE_API_URL [] defaultDelay 0 f, rfl,
          Or.inl ⟨j, rfl, inspect_accept_truthy data _ j hi⟩, ?_, ?_, ?_, ?_, ?_⟩
        · simp [World.emit, List.countP_cons, Event.isRequest, hreq, Nat.add_assoc]
        · simp [List.countP_cons, Event.isRequest, hreq]; omega
        · simp [List.countP_cons, Event.isWaitOf, hshort]
        · simp [List.countP_cons, Event.isCall, hcalls]
        · simp [List.countP_cons, Event.isCall, hcalls]
      | thrown e =>
        rw [jokeApiLoop_rejects up attempts w _ data e hlt hc hi, hworld]
        refine ⟨.call JOKE_API_URL [] :: backoffTrace JOKE_API_URL [] defaultDelay 0 f
          ++ [.logError "Attempt failed permanently (JokeAPI):" e], ?_, Or.inr rfl, ?_, ?_, ?_, ?_, ?_⟩
        · simp [World.emit]
        · simp [World.emit, List.countP_cons, Event.isRequest, hreq, Nat.add_assoc]
        · simp [List.countP_cons, Event.isRequest, hreq]; omega
        · simp [List.countP_cons, Event.isWaitOf, hshort]
        · simp [List.countP_cons, Event.isCall, hcalls]
        · simp [List.countP_cons, Event.isCall, hcalls]
      | retry =>
        have hnext := inspect_retry_lt data _ hi
        rw [jokeApiLoop_retries up attempts w _ data hlt hc hi, hworld]
        obtain ⟨evs, htrace, hout, hnx, hrq, hwt, hc1, hcm⟩ :=
          ih (attempts + 1)
            ((({ next := w.next + f + 1,
                 trace := w.trace ++
                   .call JOKE_API_URL [] :: backoffTrace JOKE_API_URL [] defaultDelay 0 f }
                 : World).emit (.warn (malformedWarning (attempts + 1)))).emit (.wait (.finite 500)))
            (by omega) (by omega)
        refine ⟨.call JOKE_API_URL [] :: backoffTrace JOKE_API_URL [] defaultDelay 0 f
          ++ [.warn (malformedWarning (attempts + 1)), .wait (.finite 500)] ++ evs, ?_, hout, ?_, ?_, ?_,
          ?_, ?_⟩
        · rw [htrace]; simp [World.emit]
        · rw [hnx]
          simp [World.emit, List.countP_cons, List.countP_append, Event.isRequest, hreq]
          omega
        · simp [List.countP_cons, List.countP_append, Event.isRequest, hreq]; omega
        · simp [List.countP_cons, List.countP_append, Event.isWaitOf, hshort]; omega
        · simp [List.countP_cons, List.countP_append, Event.isCall, hcalls]
        · simp [List.countP_cons, List.countP_append, Event.isCall, hcalls]; omega

/-! ## The Dad Joke branch -/

theorem dadJoke_throws (up : Nat → Attempt) (w w1 : World) (e : JsError)
    (hc : callFetcher up DAD_JOKE_URL [("Accept", "application/json")] w = (.error e, w1)) :
    dadJoke up w =
      ((none, some dadJokeFailure), w1.emit (.logError "Failed to fetch Dad Joke:" e)) := by
  unfold dadJoke
  simp [hc, dadJokeFailure]

theorem dadJoke_accepts (up : Nat → Attempt) (w w1 : World) (data j : Json)
    (hc : callFetcher up DAD_JOKE_URL [("Accept", "application/json")] w = (.ok data, w1))
    (hj : data.field "joke" = some j) (ht : j.truthy = true) :
    dadJoke up w = ((some j, none), w1) := by
  unfold dadJoke
  rw [hc]
  simp only
  rw [prop_of_ne_null data "joke" (ne_null_of_field data "joke" j hj), hj]
  simp [ht]

theorem dadJoke_rejects (up : Nat → Attempt) (w w1 : World) (data : Json)
    (hc : callFetcher up DAD_JOKE_URL [("Accept", "application/json")] w = (.ok data, w1))
    (hj : truthyProp (data.field "joke") = false) :
    ∃ e, dadJoke up w =
      ((none, some dadJokeFailure), w1.emit (.logError "Failed to fetch Dad Joke:" e)) := by
  unfold dadJoke
  rw [hc]
  simp only
  by_cases hnull : data = .null
  · subst hnull
    exact ⟨.typeError, by simp [Json.prop, dadJokeFailure]⟩
  · rw [prop_of_ne_null data "joke" hnull]
    cases hf : data.field "joke" with
    | none => exact ⟨.invalidStructure, by simp [dadJokeFailure]⟩
    | some j =>
      rw [hf] at hj
      simp only [truthyProp] at hj
      exact ⟨.invalidStructure, by simp [hj, dadJokeFailure]⟩

/-- Every run of the Dad Joke branch: it ends with a truthy joke and no
error, or with no joke and the Dad Joke failure text; it invokes the fetcher
exactly once, with the header `Accept: application/json`, and issues at most
five requests. -/
theorem dadJoke_run (up : Nat → Attempt) (w : World) :
    ∃ evs, (dadJoke up w).2.trace = w.trace ++ evs
      ∧ ((∃ j, (dadJoke up w).1 = (some j, none) ∧ j.truthy = true)
          ∨ (dadJoke up w).1 = (none, some dadJokeFailure))
      ∧ (dadJoke up w).2.next = w.next + evs.countP Event.isRequest
      ∧ evs.countP Event.isRequest ≤ 5
      ∧ evs.filter Event.isCall = [.call DAD_JOKE_URL [("Accept", "application/json")]]
      ∧ evs.countP (Event.isWaitOf 500) = 0 := by
  obtain ⟨f, hf, _, hworld, _, _⟩ :=
    callFetcher_run up DAD_JOKE_URL [("Accept", "application/json")] w
  have hreq := backoffTrace_requests DAD_JOKE_URL [("Accept", "application/json")] defaultDelay f 0
  have hshort := backoffTrace_no_short_wait DAD_JOKE_URL [("Accept", "application/json")] f 0
  have hcalls : (backoffTrace DAD_JOKE_URL [("Accept", "application/json")] defaultDelay 0
      f).filter Event.isCall = [] := by
    have := backoffTrace_calls DAD_JOKE_URL [("Accept", "application/json")] defaultDelay f 0
    rw [List.countP_eq_length_filter] at this
    exact List.length_eq_zero.1 this
  cases hres : (callFetcher up DAD_JOKE_URL [("Accept", "application/json")] w).1 with
  | error e =>
    have hc : callFetcher up DAD_JOKE_URL [("Accept", "application/json")] w
        = (.error e, (callFetcher up DAD_JOKE_URL [("Accept", "application/json")] w).2) := by
      rw [← hres]
    rw [dadJoke_throws up w _ e hc, hworld]
    refine ⟨.call DAD_JOKE_URL [("Accept", "application/json")]
      :: backoffTrace DAD_JOKE_URL [("Accept", "application/json")] defaultDelay 0 f
      ++ [.logError "Failed to fetch Dad Joke:" e], ?_, Or.inr rfl, ?_, ?_, ?_, ?_⟩
    · simp [World.emit]
    · simp [World.emit, List.countP_cons, Event.isRequest, hreq, Nat.add_assoc]
    · simp [List.countP_cons, Event.isRequest, hreq]; omega
    · simp [List.filter_cons, Event.isCall, hcalls]
    · simp [List.countP_cons, Event.isWaitOf, hshort]
  | ok data =>
    have hc : callFetcher up DAD_JOKE_URL [("Accept", "application/json")] w
        = (.ok data, (callFetcher up DAD_JOKE_URL [("Accept", "application/json")] w).2) := by
      rw [← hres]
    cases ht : truthyProp (data.field "joke") with
    | false =>
      obtain ⟨e, he⟩ := dadJoke_rejects up w _ data hc ht
      rw [he, hworld]
      refine ⟨.call DAD_JOKE_URL [("Accept", "application/json")]
        :: backoffTrace DAD_JOKE_URL [("Accept", "application/json")] defaultDelay 0 f
        ++ [.logError "Failed to fetch Dad Joke:" e], ?_, Or.inr rfl, ?_, ?_, ?_, ?_⟩
      · simp [World.emit]
      · simp [World.emit, List.countP_cons, Event.isRequest, hreq, Nat.add_assoc]
      · simp [List.countP_cons, Event.isRequest, hreq]; omega
      · simp [List.filter_cons, Event.isCall, hcalls]
      · simp [List.countP_cons, Event.isWaitOf, hshort]
    | true =>
      cases hf2 : data.field "joke" with
      | none => rw [hf2] at ht; simp [truthyProp] at ht
      | some j =>
        rw [hf2] at ht
        simp only [truthyProp] at ht
        rw [dadJoke_accepts up w _ data j hc hf2 ht, hworld]
        refine ⟨.call DAD_JOKE_URL [("Accept", "application/json")]
          :: backoffTrace DAD_JOKE_URL [("Accept", "application/json")] defaultDelay 0 f, rfl,
          Or.inl ⟨j, rfl, ht⟩, ?_, ?_, ?_, ?_⟩
        · simp [List.countP_cons, Event.isRequest, hreq, Nat.add_assoc]
        · simp [List.countP_cons, Event.isRequest, hreq]; omega
        · simp [List.filter_cons, Event.isCall, hcalls]
        · simp [List.countP_cons, Event.isWaitOf, hshort]

/-! ## `fetchJoke` -/

/-- The state and world `fetchJoke` ends in, in terms of what the branch
taken yields. -/
theorem fetchJoke_eq (jokeSourceIndex : Nat) (up : Nat → Attempt) (w : World) (s : AppState) :
    fetchJoke jokeSourceIndex up w s =
      ({ joke := (if jokeSourceIndex = 0 then jokeApiLoop up 0 w else dadJoke up w).1.1,
         isLoading := false,
         error :=
          if truthyStr (if jokeSourceIndex = 0 then jokeApiLoop up 0 w else dadJoke up w).1.2
          then (if jokeSourceIndex = 0 then jokeApiLoop up 0 w else dadJoke up w).1.2
          else none },
        (if jokeSourceIndex = 0 then jokeApiLoop up 0 w else dadJoke up w).2) := by
  unfold fetchJoke
  simp only
  split <;> split <;> rfl

/-! ## Runs of the JokeAPI loop over a described upstream -/

theorem scriptOf_cons (d : Delivery) (ds : List Delivery) :
    scriptOf (d :: ds) = d.script ++ scriptOf ds := by
  simp [scriptOf]

/-- Shape-level retries: while the fetcher returns malformed bodies other than
`null` and attempts remain, the loop warns, waits 500 ms and goes on with the
next attempt. -/
theorem jokeApiLoop_skips_malformed (up : Nat → Attempt) :
    ∀ (ds : List Delivery) (attempts : Nat) (w : World) (rest : List Attempt),
      attempts + ds.length < MAX_ATTEMPTS →
      (∀ d, d ∈ ds → d.valid ∧ malformed d.body = true ∧ d.body ≠ .null) →
      Plays up w.next (scriptOf ds ++ rest) →
      ∃ w1 evs, jokeApiLoop up attempts w = jokeApiLoop up (attempts + ds.length) w1
        ∧ w1.next = w.next + (scriptOf ds).length
        ∧ w1.trace = w.trace ++ evs
        ∧ Plays up w1.next rest
        ∧ evs.countP Event.isCall = ds.length
        ∧ evs.countP (Event.isWaitOf 500) = ds.length
        ∧ evs.countP Event.isRequest = (scriptOf ds).length := by
  intro ds
  induction ds with
  | nil =>
    intro attempts w rest _ _ hup
    exact ⟨w, [], by simp, by simp [scriptOf], by simp, by simpa [scriptOf] using hup,
      by simp, by simp, by simp [scriptOf]⟩
  | cons d ds ih =>
    intro attempts w rest hlen hds hup
    simp only [List.length_cons] at hlen
    obtain ⟨hvalid, hmal, hnn⟩ := hds d (List.mem_cons_self d ds)
    rw [scriptOf_cons, List.append_assoc] at hup
    obtain ⟨hup1, hup2⟩ := plays_append up w.next d.script (scriptOf ds ++ rest) hup
    have hc := callFetcher_delivers up JOKE_API_URL [] w d hvalid hup1
    have hi : inspect d.body (attempts + 1) = .retry := by
      rw [inspect_malformed d.body _ hnn hmal]
      have : attempts + 1 < MAX_ATTEMPTS := by omega
      simp [malformedStep, this]
    rw [jokeApiLoop_retries up attempts w _ d.body (by omega) hc hi]
    obtain ⟨w1, evs, hloop, hnext, htrace, hrest, hcalls, hwaits, hreqs⟩ :=
      ih (attempts + 1)
        ((({ next := w.next + d.script.length,
             trace := w.trace ++
               .call JOKE_API_URL [] ::
                 backoffTrace JOKE_API_URL [] defaultDelay 0 d.failures.length }
             : World).emit (.warn (malformedWarning (attempts + 1)))).emit (.wait (.finite 500)))
        rest (by omega) (fun d1 hd1 => hds d1 (List.mem_cons_of_mem d hd1))
        (by simpa [World.emit] using hup2)
    have hb := backoffTrace_calls JOKE_API_URL [] defaultDelay d.failures.length 0
    have hs := backoffTrace_no_short_wait JOKE_API_URL [] d.failures.length 0
    have hr := backoffTrace_requests JOKE_API_URL [] defaultDelay d.failures.length 0
    refine ⟨w1, .call JOKE_API_URL [] ::
        backoffTrace JOKE_API_URL [] defaultDelay 0 d.failures.length
        ++ [.warn (malformedWarning (attempts + 1)), .wait (.finite 500)] ++ evs, ?_, ?_, ?_, hrest, ?_, ?_,
      ?_⟩
    · rw [hloop]
      have : attempts + 1 + ds.length = attempts + (d :: ds).length := by
        simp only [List.length_cons]; omega
      rw [this]
    · rw [hnext, scriptOf_cons]
      simp [World.emit, Nat.add_assoc]
    · rw [htrace]
      simp [World.emit]
    · simp [List.countP_cons, List.countP_append, Event.isCall, hb, hcalls]
    · simp [List.countP_cons, List.countP_append, Event.isWaitOf, hs, hwaits]
    · rw [scriptOf_cons]
      simp [List.countP_cons, List.countP_append, Event.isRequest, hr, hreqs, Delivery.script]
      omega

/-- An invocation all five attempts of which fail throws the failure of the
fifth. -/
theorem callFetcher_exhausts (up : Nat → Attempt) (url : String) (headers : Headers)
    (w : World) (hall : ∀ k, k < 5 → failed (up (w.next + k)) = true) :
    ∃ e, attemptResult (up (w.next + 4)) = .error e
      ∧ callFetcher up url headers w =
        (.error e,
          { next := w.next + 5,
            trace := w.trace ++ .call url headers :: backoffTrace url headers defaultDelay 0 4 }) := by
  obtain ⟨e, he⟩ := (failed_iff _).1 (hall 4 (by decide))
  refine ⟨e, he, ?_⟩
  have hrun := fetchWithBackoff_all_fail up url headers 5 defaultDelay
    (w.emit (.call url headers)) (by decide) hall
  unfold callFetcher defaultRetries
  rw [hrun]
  simp [World.emit, he]

/-- After shape-level retries on `ds`, a well-formed single-joke body is
accepted. -/
theorem jokeApiLoop_accepts_after (up : Nat → Attempt) (ds : List Delivery) (dl : Delivery)
    (t : String) (w : World) (hlen : ds.length < MAX_ATTEMPTS)
    (hds : ∀ d, d ∈ ds → d.valid ∧ malformed d.body = true ∧ d.body ≠ .null)
    (hdl : dl.valid) (ht : wellFormedSingle dl.body t)
    (hup : Plays up w.next (scriptOf ds ++ dl.script)) :
    ∃ evs, jokeApiLoop up 0 w =
        ((some (.str t), none),
          { next := w.next + (scriptOf ds ++ dl.script).length, trace := w.trace ++ evs })
      ∧ evs.countP Event.isCall = ds.length + 1
      ∧ evs.countP (Event.isWaitOf 500) = ds.length
      ∧ evs.countP Event.isRequest = (scriptOf ds ++ dl.script).length := by
  obtain ⟨w1, evs, hloop, hnext, htrace, hrest, hcalls, hwaits, hreqs⟩ :=
    jokeApiLoop_skips_malformed up ds 0 w dl.script (by omega) hds hup
  have hc := callFetcher_delivers up JOKE_API_URL [] w1 dl hdl hrest
  have hb := backoffTrace_calls JOKE_API_URL [] defaultDelay dl.failures.length 0
  have hs := backoffTrace_no_short_wait JOKE_API_URL [] dl.failures.length 0
  have hr := backoffTrace_requests JOKE_API_URL [] defaultDelay dl.failures.length 0
  refine ⟨evs ++ .call JOKE_API_URL [] ::
    backoffTrace JOKE_API_URL [] defaultDelay 0 dl.failures.length, ?_, ?_, ?_, ?_⟩
  · rw [hloop, jokeApiLoop_accepts up (0 + ds.length) w1 _ dl.body (.str t) (by omega) hc
      (inspect_wellFormed dl.body t _ ht), hnext, htrace]
    simp [Nat.add_assoc]
  · simp [List.countP_cons, List.countP_append, Event.isCall, hb, hcalls]
  · simp [List.countP_cons, List.countP_append, Event.isWaitOf, hs, hwaits]
  · simp [List.countP_cons, List.countP_append, Event.isRequest, hr, hreqs, Delivery.script]

/-- After shape-level retries on `ds`, a body with the error flag ends the
loop: the error built from its message is logged and the JokeAPI failure
text is the error. -/
theorem jokeApiLoop_flagged_after (up : Nat → Attempt) (ds : List Delivery) (dl : Delivery)
    (w : World) (hlen : ds.length < MAX_ATTEMPTS)
    (hds : ∀ d, d ∈ ds → d.valid ∧ malformed d.body = true ∧ d.body ≠ .null)
    (hdl : dl.valid) (hflag : flagged dl.body = true)
    (hup : Plays up w.next (scriptOf ds ++ dl.script)) :
    ∃ evs, jokeApiLoop up 0 w =
        ((none, some jokeApiFailure),
          { next := w.next + (scriptOf ds ++ dl.script).length,
            trace := w.trace ++ (evs ++ [.logError "Attempt failed permanently (JokeAPI):"
              (.api (orElse (dl.body.field "message")
                (.str "API reported an internal error.")))]) })
      ∧ evs.countP Event.isCall = ds.length + 1
      ∧ evs.countP (Event.isWaitOf 500) = ds.length
      ∧ evs.countP Event.isRequest = (scriptOf ds ++ dl.script).length := by
  obtain ⟨w1, evs, hloop, hnext, htrace, hrest, hcalls, hwaits, hreqs⟩ :=
    jokeApiLoop_skips_malformed up ds 0 w dl.script (by omega) hds hup
  have hc := callFetcher_delivers up JOKE_API_URL [] w1 dl hdl hrest
  have hb := backoffTrace_calls JOKE_API_URL [] defaultDelay dl.failures.length 0
  have hs := backoffTrace_no_short_wait JOKE_API_URL [] dl.failures.length 0
  have hr := backoffTrace_requests JOKE_API_URL [] defaultDelay dl.failures.length 0
  refine ⟨evs ++ .call JOKE_API_URL [] ::
    backoffTrace JOKE_API_URL [] defaultDelay 0 dl.failures.length, ?_, ?_, ?_, ?_⟩
  · rw [hloop, jokeApiLoop_rejects up (0 + ds.length) w1 _ dl.body _ (by omega) hc
      (inspect_flagged dl.body _ hflag), hnext, htrace]
    simp [World.emit, Nat.add_assoc]
  · simp [List.countP_cons, List.countP_append, Event.isCall, hb, hcalls]
  · simp [List.countP_cons, List.countP_append, Event.isWaitOf, hs, hwaits]
  · simp [List.countP_cons, List.countP_append, Event.isRequest, hr, hreqs, Delivery.script]

/-- After shape-level retries on `ds`, an invocation whose five attempts all
fail ends the loop. -/
theorem jokeApiLoop_exhausted_after (up : Nat → Attempt) (ds : List Delivery)
    (fs : List Attempt) (w : World) (hlen : ds.length < MAX_ATTEMPTS)
    (hds : ∀ d, d ∈ ds → d.valid ∧ malformed d.body = true ∧ d.body ≠ .null)
    (hfs : fs.length = 5) (hfail : ∀ a, a ∈ fs → failed a = true)
    (hup : Plays up w.next (scriptOf ds ++ fs)) :
    ∃ evs e, jokeApiLoop up 0 w =
        ((none, some jokeApiFailure),
          { next := w.next + (scriptOf ds).length + 5,
            trace := w.trace ++ (evs ++ [.logError "Attempt failed permanently (JokeAPI):" e]) })
      ∧ evs.countP Event.isCall = ds.length + 1
      ∧ evs.countP (Event.isWaitOf 500) = ds.length
      ∧ evs.countP Event.isRequest = (scriptOf ds).length + 5 := by
  obtain ⟨w1, evs, hloop, hnext, htrace, hrest, hcalls, hwaits, hreqs⟩ :=
    jokeApiLoop_skips_malformed up ds 0 w fs (by omega) hds hup
  have hall : ∀ k, k < 5 → failed (up (w1.next + k)) = true := by
    intro k hk
    have hk2 : k < fs.length := by omega
    rw [hrest k (fs.get ⟨k, hk2⟩) (List.get?_eq_get hk2)]
    exact hfail _ (List.get_mem _ _ _)
  obtain ⟨e, _, hc⟩ := callFetcher_exhausts up JOKE_API_URL [] w1 hall
  have hb := backoffTrace_calls JOKE_API_URL [] defaultDelay 4 0
  have hs := backoffTrace_no_short_wait JOKE_API_URL [] 4 0
  have hr := backoffTrace_requests JOKE_API_URL [] defaultDelay 4 0
  refine ⟨evs ++ .call JOKE_API_URL [] :: backoffTrace JOKE_API_URL [] defaultDelay 0 4, e,
    ?_, ?_, ?_, ?_⟩
  · rw [hloop, jokeApiLoop_throws up (0 + ds.length) w1 _ e (by omega) hc, hnext, htrace]
    simp [World.emit]
  · simp [List.countP_cons, List.countP_append, Event.isCall, hb, hcalls]
  · simp [List.countP_cons, List.countP_append, Event.isWaitOf, hs, hwaits]
  · simp [List.countP_cons, List.countP_append, Event.isRequest, hr, hreqs]

/-! ## The claims on `fetchJoke` -/

theorem truthyStr_jokeApiFailure : truthyStr (some jokeApiFailure) = true := by
  simp [truthyStr, jokeApiFailure]

theorem truthyStr_dadJokeFailure : truthyStr (some dadJokeFailure) = true := by
  simp [truthyStr, dadJokeFailure]

/-- What the branch taken yields: a truthy joke and no error, or no joke and
a non-empty error text. -/
theorem branch_exclusive (jokeSourceIndex : Nat) (up : Nat → Attempt) (w : World) :
    (∃ j, (if jokeSourceIndex = 0 then jokeApiLoop up 0 w else dadJoke up w).1 = (some j, none)
        ∧ j.truthy = true)
    ∨ (∃ m, (if jokeSourceIndex = 0 then jokeApiLoop up 0 w else dadJoke up w).1 = (none, some m)
        ∧ truthyStr (some m) = true) := by
  by_cases h : jokeSourceIndex = 0
  · simp only [h, if_true]
    obtain ⟨_, _, hout, _⟩ := jokeApiLoop_run up 5 0 w rfl (by decide)
    rcases hout with ⟨j, hj, ht⟩ | hfail
    · exact Or.inl ⟨j, hj, ht⟩
    · exact Or.inr ⟨jokeApiFailure, hfail, truthyStr_jokeApiFailure⟩
  · simp only [h, if_false]
    obtain ⟨_, _, hout, _⟩ := dadJoke_run up w
    rcases hout with ⟨j, hj, ht⟩ | hfail
    · exact Or.inl ⟨j, hj, ht⟩
    · exact Or.inr ⟨dadJokeFailure, hfail, truthyStr_dadJokeFailure⟩

/-- C1: whichever source is picked and whatever the upstream answers, the
state `fetchJoke` ends in has `isLoading = false` and exactly one of `joke`
and `error` set: a truthy joke with no error, or no joke with a non-empty
error text. -/
theorem fetchJoke_outcome_exclusive (jokeSourceIndex : Nat) (up : Nat → Attempt) (w : World)
    (s : AppState) :
    (fetchJoke jokeSourceIndex up w s).1.isLoading = false
    ∧ ((∃ j, (fetchJoke jokeSourceIndex up w s).1.joke = some j ∧ j.truthy = true
          ∧ (fetchJoke jokeSourceIndex up w s).1.error = none)
        ∨ ((fetchJoke jokeSourceIndex up w s).1.joke = none
          ∧ ∃ m, (fetchJoke jokeSourceIndex up w s).1.error = some m ∧ m ≠ "")) := by
  rw [fetchJoke_eq]
  refine ⟨rfl, ?_⟩
  rcases branch_exclusive jokeSourceIndex up w with ⟨j, hj, ht⟩ | ⟨m, hm, ht⟩
  · refine Or.inl ⟨j, ?_, ht, ?_⟩
    · simp only [hj]
    · simp only [hj, truthyStr]
      rfl
  · refine Or.inr ⟨?_, m, ?_, ?_⟩
    · simp only [hm]
    · simp only [hm, ht, if_true]
    · intro hempty
      subst hempty
      simp [truthyStr] at ht

/-- C9: for two calls run in sequence, the second started in the state and
world the first one ended in, the state and world after the second call are
those the second call produces from the fresh state; the same holds from any
state at all, so nothing of an earlier outcome survives. -/
theorem fetchJoke_overwrites_outcome (first second : Nat) (up : Nat → Attempt) (w : World)
    (s : AppState) :
    fetchJoke second up (fetchJoke first up w s).2 (fetchJoke first up w s).1
        = fetchJoke second up (fetchJoke first up w s).2 initialState
    ∧ ∀ (w1 : World) (s1 : AppState),
        fetchJoke second up w1 s1 = fetchJoke second up w1 initialState := by
  have h : ∀ (w1 : World) (s1 : AppState),
      fetchJoke second up w1 s1 = fetchJoke second up w1 initialState := by
    intro w1 s1
    rw [fetchJoke_eq, fetchJoke_eq]
  exact ⟨h _ _, h⟩

/-- The events of a call of `fetchJoke` extend the trace of the world it
started in. -/
theorem fetchJoke_events (jokeSourceIndex : Nat) (up : Nat → Attempt) (w : World)
    (s : AppState) (evs : List Event)
    (h : (if jokeSourceIndex = 0 then jokeApiLoop up 0 w else dadJoke up w).2.trace
      = w.trace ++ evs) :
    eventsSince w (fetchJoke jokeSourceIndex up w s).2 = evs := by
  apply eventsSince_append
  rw [fetchJoke_eq]
  exact h

/-- C8: on the Source B path, when all five attempts of the fetcher fail (so
that it throws), or when it returns a body without a joke field, the state
`fetchJoke` ends in is exactly no joke, not loading and the Dad Joke failure
text, and the fetcher was invoked exactly once, with the header
`Accept: application/json`. -/
theorem fetchJoke_dadJoke_failure (jokeSourceIndex : Nat) (up : Nat → Attempt) (w : World)
    (s : AppState) (hsrc : jokeSourceIndex ≠ 0)
    (h : (∀ k, k < 5 → failed (up (w.next + k)) = true)
      ∨ ∃ d : Delivery, d.valid ∧ Plays up w.next d.script ∧ d.body.field "joke" = none) :
    (fetchJoke jokeSourceIndex up w s).1
        = { joke := none, isLoading := false,
            error := some "Failed to load a joke from Dad Joke API." }
    ∧ (eventsSince w (fetchJoke jokeSourceIndex up w s).2).filter Event.isCall
        = [.call "https://icanhazdadjoke.com/" [("Accept", "application/json")]] := by
  obtain ⟨evs, htrace, _, _, _, hcall, _⟩ := dadJoke_run up w
  have hev := fetchJoke_events jokeSourceIndex up w s evs (by simpa [hsrc] using htrace)
  have hout : (dadJoke up w).1 = (none, some dadJokeFailure) := by
    rcases h with hall | ⟨d, hvalid, hplays, hnone⟩
    · obtain ⟨e, _, hc⟩ := callFetcher_exhausts up DAD_JOKE_URL [("Accept", "application/json")]
        w hall
      rw [dadJoke_throws up w _ e hc]
    · have hc := callFetcher_delivers up DAD_JOKE_URL [("Accept", "application/json")] w d hvalid
        hplays
      obtain ⟨e, he⟩ := dadJoke_rejects up w _ d.body hc (by simp [hnone, truthyProp])
      rw [he]
  refine ⟨?_, ?_⟩
  · rw [fetchJoke_eq]
    simp only [hsrc, if_false, hout, truthyStr_dadJokeFailure, if_true]
    rfl
  · rw [hev, hcall]
    rfl

/-- Witness of C8: the network rejects every request. -/
theorem fetchJoke_dadJoke_failure_witness :
    ((1 : Nat) ≠ 0 ∧ ∀ k, k < 5 → failed (upstreamOf [] (World.start.next + k)) = true)
    ∧ (fetchJoke 1 (upstreamOf []) World.start initialState).1
        = { joke := none, isLoading := false,
            error := some "Failed to load a joke from Dad Joke API." }
    ∧ (eventsSince World.start
          (fetchJoke 1 (upstreamOf []) World.start initialState).2).filter Event.isCall
        = [.call "https://icanhazdadjoke.com/" [("Accept", "application/json")]] :=
  have hall : ∀ k, k < 5 → failed (upstreamOf [] (World.start.next + k)) = true :=
    fun _ _ => rfl
  ⟨⟨by decide, hall⟩,
    fetchJoke_dadJoke_failure 1 (upstreamOf []) World.start initialState (by decide)
      (Or.inl hall)⟩

/-- C10: a call of `fetchJoke` is a total function of the upstream, and is
bounded. On the Source A path it issues at most 25 requests, in at most 5
invocations of the fetcher, with at most 4 waits of 500 ms; on the Source B
path it issues at most 5 requests; and on the Source A path, when after any
number of shape-level retries an invocation of the fetcher sees all its five
attempts fail, the call ends in failure with that invocation as its last one
and those five requests as its last requests. -/
theorem fetchJoke_bounded (up : Nat → Attempt) (w : World) (s : AppState) :
    ((fetchJoke 0 up w s).2.next ≤ w.next + 25
      ∧ (eventsSince w (fetchJoke 0 up w s).2).countP Event.isRequest ≤ 25
      ∧ (eventsSince w (fetchJoke 0 up w s).2).countP Event.isCall ≤ 5
      ∧ (eventsSince w (fetchJoke 0 up w s).2).countP (Event.isWaitOf 500) ≤ 4)
    ∧ (∀ jokeSourceIndex, jokeSourceIndex ≠ 0 →
        (fetchJoke jokeSourceIndex up w s).2.next ≤ w.next + 5
        ∧ (eventsSince w (fetchJoke jokeSourceIndex up w s).2).countP Event.isRequest ≤ 5)
    ∧ (∀ (ds : List Delivery) (fs : List Attempt), ds.length < 5 →
        (∀ d, d ∈ ds → d.valid ∧ malformed d.body = true ∧ d.body ≠ .null) →
        fs.length = 5 → (∀ a, a ∈ fs → failed a = true) →
        Plays up w.next (scriptOf ds ++ fs) →
        (fetchJoke 0 up w s).1
            = { joke := none, isLoading := false,
                error := some "Failed to load a joke from JokeAPI." }
          ∧ (eventsSince w (fetchJoke 0 up w s).2).countP Event.isCall = ds.length + 1
          ∧ (fetchJoke 0 up w s).2.next = w.next + (scriptOf ds).length + 5) := by
  refine ⟨?_, ?_, ?_⟩
  · obtain ⟨evs, htrace, _, hnext, hreq, hwait, _, hcall⟩ :=
      jokeApiLoop_run up 5 0 w rfl (by decide)
    have hev := fetchJoke_events 0 up w s evs (by simpa using htrace)
    rw [hev]
    refine ⟨?_, by omega, by omega, by omega⟩
    rw [fetchJoke_eq]
    simp only [if_true]
    omega
  · intro idx hidx
    obtain ⟨evs, htrace, _, hnext, hreq, _, _⟩ := dadJoke_run up w
    have hev := fetchJoke_events idx up w s evs (by simpa [hidx] using htrace)
    rw [hev]
    refine ⟨?_, hreq⟩
    rw [fetchJoke_eq]
    simp only [hidx, if_false]
    omega
  · intro ds fs hlen hds hfs hfail hup
    obtain ⟨evs, e, hloop, hcalls, _, _⟩ :=
      jokeApiLoop_exhausted_after up ds fs w (by simpa [MAX_ATTEMPTS] using hlen) hds hfs hfail
        hup
    have hev := fetchJoke_events 0 up w s
      (evs ++ [.logError "Attempt failed permanently (JokeAPI):" e]) (by simp [hloop])
    rw [hev]
    refine ⟨?_, ?_, ?_⟩
    · rw [fetchJoke_eq]
      simp only [if_true, hloop, truthyStr_jokeApiFailure]
      rfl
    · simp [List.countP_append, Event.isCall, hcalls]
    · rw [fetchJoke_eq]
      simp only [if_true, hloop]

theorem plays_upstreamOf (script : List Attempt) :
    Plays (upstreamOf script) World.start.next script := by
  intro i a h
  have hlt : i < script.length := by
    by_contra hge
    rw [List.get?_eq_none.2 (by omega)] at h
    exact Option.noConfusion h
  simp only [upstreamOf, World.start, Nat.zero_add, List.getD]
  rw [h]
  rfl

/-- Witness of C10: the empty object is retried once, then the network
rejects five requests: two invocations, six requests, and the call fails. -/
theorem fetchJoke_bounded_witness :
    (fetchJoke 0 (upstreamOf malformedThenOffline) World.start initialState).1
        = { joke := none, isLoading := false,
            error := some "Failed to load a joke from JokeAPI." }
    ∧ (eventsSince World.start
          (fetchJoke 0 (upstreamOf malformedThenOffline) World.start initialState).2).countP
        Event.isCall = 1 + 1
    ∧ (fetchJoke 0 (upstreamOf malformedThenOffline) World.start initialState).2.next
        = 0 + 1 + 5 :=
  (fetchJoke_bounded (upstreamOf malformedThenOffline) World.start initialState).2.2
    [{ failures := [], status := 200, body := .obj [] }] (List.replicate 5 (.netErr "offline"))
    (by decide)
    (by
      intro d hd
      simp only [List.mem_singleton] at hd
      subst hd
      exact ⟨⟨by decide, by simp, by decide⟩, by decide, by simp⟩)
    (by decide)
    (by
      intro a ha
      rw [List.eq_of_mem_replicate ha]
      rfl)
    (plays_upstreamOf malformedThenOffline)

/-- C6, as stated, fails: on the Source A path the first response is a body
with the error flag whose message is `Rate limit reached`; the error of the
state `fetchJoke` ends in is the fixed JokeAPI failure text, not the message
of the body. -/
theorem fetchJoke_flagged_message_counterexample :
    flagged flaggedBody = true
    ∧ flaggedBody.field "message" = some (.str "Rate limit reached")
    ∧ (fetchJoke 0 (upstreamOf [.response 200 (.ok flaggedBody)]) World.start initialState).1.error
        = some "Failed to load a joke from JokeAPI."
    ∧ (fetchJoke 0 (upstreamOf [.response 200 (.ok flaggedBody)]) World.start initialState).1.error
        ≠ some "Rate limit reached" := by
  have h : (fetchJoke 0 (upstreamOf [.response 200 (.ok flaggedBody)]) World.start
      initialState).1.error = some "Failed to load a joke from JokeAPI." := by
    simp [fetchJoke, jokeApiLoop, callFetcher, fetchWithBackoff, fetchLoop, upstreamOf,
      attemptResult, statusOk, World.fetch, World.emit, World.start, MAX_ATTEMPTS, defaultRetries,
      inspect, Json.prop, truthyStr, initialState, Json.field, truthyProp, flaggedBody,
      List.lookup, Json.truthy]
  refine ⟨by decide, by simp [flaggedBody, Json.field, List.lookup], h, ?_⟩
  rw [h]
  decide

/-- C6 (amended): on the Source A path, when the fetcher returns a body with
the application-level error flag, at the first shape-level attempt or after
shape-level retries, the state `fetchJoke` ends in has no joke and the fixed
text `Failed to load a joke from JokeAPI.` as error, whatever the message
field of the body; the message of the body, or the default
`API reported an internal error.` when the body has no truthy message, is only
the message of the error written last to the console. -/
theorem fetchJoke_flagged_message (up : Nat → Attempt) (w : World) (s : AppState)
    (ds : List Delivery) (dl : Delivery) (hlen : ds.length < 5)
    (hds : ∀ d, d ∈ ds → d.valid ∧ malformed d.body = true ∧ d.body ≠ .null)
    (hdl : dl.valid) (hflag : flagged dl.body = true)
    (hup : Plays up w.next (scriptOf ds ++ dl.script)) :
    (fetchJoke 0 up w s).1
        = { joke := none, isLoading := false,
            error := some "Failed to load a joke from JokeAPI." }
    ∧ (eventsSince w (fetchJoke 0 up w s).2).getLast?
        = some (.logError "Attempt failed permanently (JokeAPI):"
            (.api (orElse (dl.body.field "message") (.str "API reported an internal error.")))) := by
  obtain ⟨evs, hloop, _, _, _⟩ :=
    jokeApiLoop_flagged_after up ds dl w (by simpa [MAX_ATTEMPTS] using hlen) hds hdl hflag hup
  have hev := fetchJoke_events 0 up w s
    (evs ++ [.logError "Attempt failed permanently (JokeAPI):"
      (.api (orElse (dl.body.field "message") (.str "API reported an internal error.")))])
    (by simp only [if_true, hloop])
  rw [hev]
  refine ⟨?_, by simp⟩
  rw [fetchJoke_eq]
  simp only [if_true, hloop, truthyStr_jokeApiFailure]
  rfl

/-- Witness of C6 (amended): the first response carries the error flag and
the message `Rate limit reached`. -/
theorem fetchJoke_flagged_message_witness :
    (fetchJoke 0 (upstreamOf [.response 200 (.ok flaggedBody)]) World.start initialState).1
        = { joke := none, isLoading := false,
            error := some "Failed to load a joke from JokeAPI." }
    ∧ (eventsSince World.start
          (fetchJoke 0 (upstreamOf [.response 200 (.ok flaggedBody)]) World.start
            initialState).2).getLast?
        = some (.logError "Attempt failed permanently (JokeAPI):"
            (.api (orElse (flaggedBody.field "message")
              (.str "API reported an internal error.")))) :=
  fetchJoke_flagged_message (upstreamOf [.response 200 (.ok flaggedBody)]) World.start
    initialState [] { failures := [], status := 200, body := flaggedBody } (by decide)
    (by intro d hd; simp at hd)
    ⟨by decide, by simp, by decide⟩ (by decide)
    (plays_upstreamOf [.response 200 (.ok flaggedBody)])

/-! ### Shape-level retries on the Source A path -/

/-- Source A, bodies other than `null`: when the fetcher returns a malformed
body on each of the first `k ≤ 4` shape-level attempts and a well-formed
single-joke body with text `t` on the next, the call ends with that joke, not
loading and no error, after exactly `k + 1` invocations of the fetcher and
exactly `k` waits of 500 ms. -/
theorem fetchJoke_accepts_after_retries (up : Nat → Attempt) (w : World) (s : AppState)
    (ds : List Delivery) (dl : Delivery) (t : String) (hlen : ds.length ≤ 4)
    (hds : ∀ d, d ∈ ds → d.valid ∧ malformed d.body = true ∧ d.body ≠ .null)
    (hdl : dl.valid) (ht : wellFormedSingle dl.body t)
    (hup : Plays up w.next (scriptOf ds ++ dl.script)) :
    (fetchJoke 0 up w s).1 = { joke := some (.str t), isLoading := false, error := none }
    ∧ (eventsSince w (fetchJoke 0 up w s).2).countP Event.isCall = ds.length + 1
    ∧ (eventsSince w (fetchJoke 0 up w s).2).countP (Event.isWaitOf 500) = ds.length
    ∧ (fetchJoke 0 up w s).2.next = w.next + (scriptOf ds ++ dl.script).length := by
  obtain ⟨evs, hloop, hcalls, hwaits, _⟩ :=
    jokeApiLoop_accepts_after up ds dl t w (by simp only [MAX_ATTEMPTS]; omega) hds hdl ht hup
  have hev := fetchJoke_events 0 up w s evs (by simp only [if_true, hloop])
  rw [hev]
  refine ⟨?_, hcalls, hwaits, ?_⟩
  · rw [fetchJoke_eq]
    simp only [if_true, hloop, truthyStr]
    rfl
  · rw [fetchJoke_eq]
    simp only [if_true, hloop]

/-- Source A, bodies other than `null`: when the fetcher returns a malformed
body on each of the first `n - 1 ≤ 4` shape-level attempts and a body with the
error flag on the `n`-th, the call ends in failure after exactly `n`
invocations of the fetcher, and no request follows the one that brought the
flagged body. -/
theorem fetchJoke_fails_on_flag_after_retries (up : Nat → Attempt) (w : World) (s : AppState)
    (ds : List Delivery) (dl : Delivery) (hlen : ds.length ≤ 4)
    (hds : ∀ d, d ∈ ds → d.valid ∧ malformed d.body = true ∧ d.body ≠ .null)
    (hdl : dl.valid) (hflag : flagged dl.body = true)
    (hup : Plays up w.next (scriptOf ds ++ dl.script)) :
    (fetchJoke 0 up w s).1
        = { joke := none, isLoading := false,
            error := some "Failed to load a joke from JokeAPI." }
    ∧ (eventsSince w (fetchJoke 0 up w s).2).countP Event.isCall = ds.length + 1
    ∧ (fetchJoke 0 up w s).2.next = w.next + (scriptOf ds ++ dl.script).length := by
  obtain ⟨evs, hloop, hcalls, _, _⟩ :=
    jokeApiLoop_flagged_after up ds dl w (by simp only [MAX_ATTEMPTS]; omega) hds hdl hflag hup
  have hev := fetchJoke_events 0 up w s
    (evs ++ [.logError "Attempt failed permanently (JokeAPI):"
      (.api (orElse (dl.body.field "message") (.str "API reported an internal error.")))])
    (by simp only [if_true, hloop])
  rw [hev]
  refine ⟨?_, ?_, ?_⟩
  · rw [fetchJoke_eq]
    simp only [if_true, hloop, truthyStr_jokeApiFailure]
    rfl
  · simp [List.countP_append, Event.isCall, hcalls]
  · rw [fetchJoke_eq]
    simp only [if_true, hloop]

/-- C5 at the failing input: on the Source A path the first response is a
200 whose body is the JSON value `null`, which is malformed (no error flag, no
single-joke payload), and the second is a 200 with a well-formed single-joke
body. Reading `data.error` on `null` throws, so the call ends in failure after
one invocation of the fetcher, one request and no wait of 500 ms, instead of
accepting the joke of the second response. -/
theorem fetchJoke_null_body_not_retried :
    malformed .null = true
    ∧ wellFormedSingle singleJokeBody "ha"
    ∧ (fetchJoke 0 (upstreamOf nullThenJoke) World.start initialState).1
        = { joke := none, isLoading := false,
            error := some "Failed to load a joke from JokeAPI." }
    ∧ (eventsSince World.start
          (fetchJoke 0 (upstreamOf nullThenJoke) World.start initialState).2)
        = [.call JOKE_API_URL [], .request JOKE_API_URL [],
           .logError "Attempt failed permanently (JokeAPI):" .typeError] := by
  refine ⟨by decide, ⟨by decide, ?_, ?_, by decide⟩, ?_, ?_⟩
  · simp [singleJokeBody, Json.field, List.lookup]
  · simp [singleJokeBody, Json.field, List.lookup]
  · simp [fetchJoke, jokeApiLoop, callFetcher, fetchWithBackoff, fetchLoop, upstreamOf,
      nullThenJoke, attemptResult, statusOk, World.fetch, World.emit, World.start, MAX_ATTEMPTS,
      defaultRetries, inspect, Json.prop, truthyStr, initialState]
  · simp [eventsSince, fetchJoke, jokeApiLoop, callFetcher, fetchWithBackoff, fetchLoop,
      upstreamOf, nullThenJoke, attemptResult, statusOk, World.fetch, World.emit, World.start,
      MAX_ATTEMPTS, defaultRetries, inspect, Json.prop, truthyStr, initialState]

/-- C7 at the failing input: on the Source A path the first response is a
200 whose body is the JSON value `null`, which is malformed, and the second is
a 200 with a body carrying the error flag. Reading `data.error` on `null`
throws, so the call ends in failure after one invocation of the fetcher and one
request, not after two shape-level attempts: the flagged body is never
requested. -/
theorem fetchJoke_null_body_ends_before_flag :
    malformed .null = true
    ∧ flagged flaggedBody = true
    ∧ (fetchJoke 0 (upstreamOf nullThenFlagged) World.start initialState).1
        = { joke := none, isLoading := false,
            error := some "Failed to load a joke from JokeAPI." }
    ∧ (eventsSince World.start
          (fetchJoke 0 (upstreamOf nullThenFlagged) World.start initialState).2).countP
        Event.isCall = 1
    ∧ (fetchJoke 0 (upstreamOf nullThenFlagged) World.start initialState).2.next = 1 := by
  refine ⟨by decide, by decide, ?_, ?_, ?_⟩
  · simp [fetchJoke, jokeApiLoop, callFetcher, fetchWithBackoff, fetchLoop, upstreamOf,
      nullThenFlagged, attemptResult, statusOk, World.fetch, World.emit, World.start, MAX_ATTEMPTS,
      defaultRetries, inspect, Json.prop, truthyStr, initialState]
  · simp [eventsSince, fetchJoke, jokeApiLoop, callFetcher, fetchWithBackoff, fetchLoop,
      upstreamOf, nullThenFlagged, attemptResult, statusOk, World.fetch, World.emit, World.start,
      MAX_ATTEMPTS, defaultRetries, inspect, Json.prop, truthyStr, initialState, Event.isCall]
  · simp [fetchJoke, jokeApiLoop, callFetcher, fetchWithBackoff, fetchLoop, upstreamOf,
      nullThenFlagged, attemptResult, statusOk, World.fetch, World.emit, World.start, MAX_ATTEMPTS,
      defaultRetries, inspect, Json.prop, truthyStr, initialState]

end Funbit
